import Mathlib

set_option maxRecDepth 100000

/-!
Shallow embedding of the crop-mutation layout-optimizer core
(src/utils/layoutOptimizer and src/utils/optimizer) together with the
mutation catalog, and proofs about the claims of the specification.

Conventions of the embedding:
* JavaScript Map objects become association lists in insertion order
  (set on a fresh key appends at the end, set on an existing key updates
  in place, delete filters the entry out).
* JavaScript Set objects become lists without duplicates in insertion
  order (add appends when absent, delete filters).
* Cell keys of the form x comma y become integer pairs.
* Numbers that the code only ever uses as integers become Nat or Int;
  scoring weights that carry decimal values become rationals.
-/

namespace CropMutation

/-- Board coordinates.  The code addresses cells by integer pairs; loop
indices range one step outside the board, so coordinates are integers. -/
abbrev Pos := Int × Int

/-- GRID_SIZE from layoutOptimizer/constants. -/
def GRID_SIZE : Int := 10

/-- A position is on the 10 by 10 board. -/
def inBounds (q : Pos) : Prop :=
  0 ≤ q.1 ∧ q.1 < GRID_SIZE ∧ 0 ≤ q.2 ∧ q.2 < GRID_SIZE

instance : DecidablePred inBounds := fun _ => by
  unfold inBounds; infer_instance

/-- JS Set.add: append when absent (insertion order preserved). -/
def setAdd {α : Type} [DecidableEq α] (s : List α) (a : α) : List α :=
  if a ∈ s then s else s ++ [a]

/-- JS Map.get on an association list. -/
def alookup {κ β : Type} [DecidableEq κ] : List (κ × β) → κ → Option β
  | [], _ => none
  | p :: t, k0 => if p.1 = k0 then some p.2 else alookup t k0

/-- JS Map.set: update in place when the key exists, append otherwise. -/
def mapSet {κ β : Type} [DecidableEq κ] (m : List (κ × β)) (k : κ) (v : β) :
    List (κ × β) :=
  if (alookup m k).isSome then
    m.map (fun p => if p.1 = k then (k, v) else p)
  else m ++ [(k, v)]

/-- JS Map.delete. -/
def mapDelete {κ β : Type} [DecidableEq κ] (m : List (κ × β)) (k : κ) :
    List (κ × β) :=
  m.filter (fun p => decide (p.1 ≠ k))

/-- The push-into-a-map-of-lists idiom of the feasibility scanner:
if the key is absent, bind it to an empty list, then push. -/
def pushEntry {κ β : Type} [DecidableEq κ] (m : List (κ × List β)) (k : κ) (v : β) :
    List (κ × List β) :=
  match alookup m k with
  | some l => mapSet m k (l ++ [v])
  | none => m ++ [(k, [v])]

/-- Consecutive integers lo, lo+1, ..., lo+n-1. -/
def intRange (lo : Int) (n : Nat) : List Int :=
  (List.range n).map (fun k => lo + (k : Int))

/-- Footprint cells of a w by h rectangle anchored at (x, y), in the
row-major order of the nested loops of the code. -/
def rectCells (x y : Int) (w h : Nat) : List Pos :=
  (intRange 0 h).flatMap (fun dy => (intRange 0 w).map (fun dx => (x + dx, y + dy)))

/-- Adjacency-ring offsets for a w by h footprint: the dy from -1 to h and
dx from -1 to w double loop of the code, skipping the interior. -/
def ringOffsets (w h : Nat) : List (Int × Int) :=
  (intRange (-1) (h + 2)).flatMap (fun dy =>
    (intRange (-1) (w + 2)).filterMap (fun dx =>
      if 0 ≤ dy ∧ dy < (h : Int) ∧ 0 ≤ dx ∧ dx < (w : Int) then none
      else some (dx, dy)))

/-- Absolute ring cells of a rectangle anchored at (x, y); may include
out-of-bounds positions, exactly as the loop indices of the code do. -/
def ringCells (x y : Int) (w h : Nat) : List Pos :=
  (ringOffsets w h).map (fun d => (x + d.1, y + d.2))

/-- Crop record of CropRegistry: crop kind and the set of instance ids it
serves, in insertion order. -/
structure CropInfo where
  type : String
  mutations : List String
deriving DecidableEq

/-- MutationPlacement of layoutOptimizer/types. -/
structure MutationPlacement where
  mutationId : String
  instanceId : String
  position : Pos
  size : Nat × Nat
  crops : List (Pos × String)
  needsIsolation : Bool
deriving DecidableEq

/-- layoutOptimizer/Grid: immutable unlocked set plus occupied set. -/
structure Grid where
  unlockedSlots : List Pos
  occupied : List Pos
deriving DecidableEq

def Grid.isUnlocked (g : Grid) (q : Pos) : Bool :=
  decide (q ∈ g.unlockedSlots)

def Grid.isFree (g : Grid) (q : Pos) : Bool :=
  decide (inBounds q ∧ q ∈ g.unlockedSlots ∧ q ∉ g.occupied)

def Grid.occupy (g : Grid) (q : Pos) : Grid :=
  { g with occupied := setAdd g.occupied q }

def Grid.release (g : Grid) (q : Pos) : Grid :=
  { g with occupied := g.occupied.filter (fun p => decide (p ≠ q)) }

def Grid.canFitRect (g : Grid) (x y : Int) (w h : Nat) : Bool :=
  (rectCells x y w h).all g.isFree

def Grid.occupyRect (g : Grid) (x y : Int) (w h : Nat) : Grid :=
  (rectCells x y w h).foldl Grid.occupy g

def Grid.releaseRect (g : Grid) (x y : Int) (w h : Nat) : Grid :=
  (rectCells x y w h).foldl Grid.release g

/-- layoutOptimizer/CropRegistry: sparse map cell to crop record. -/
structure CropRegistry where
  crops : List (Pos × CropInfo)
deriving DecidableEq

def CropRegistry.getCrop (r : CropRegistry) (q : Pos) : Option CropInfo :=
  alookup r.crops q

def CropRegistry.hasCrop (r : CropRegistry) (q : Pos) : Bool :=
  (alookup r.crops q).isSome

def CropRegistry.placeCrop (r : CropRegistry) (q : Pos) (t : String)
    (forMutation : String) : CropRegistry :=
  match alookup r.crops q with
  | some ci => ⟨mapSet r.crops q ⟨ci.type, setAdd ci.mutations forMutation⟩⟩
  | none => ⟨r.crops ++ [(q, ⟨t, [forMutation]⟩)]⟩

/-- Walk the crop map, drop the instance id from every serving set, delete
crops whose serving set collapses to empty, and return the released cells
in iteration order. -/
def removeServing (id : String) :
    List (Pos × CropInfo) → List (Pos × CropInfo) × List Pos
  | [] => ([], [])
  | p :: rest =>
    let ms := p.2.mutations.filter (fun s => decide (s ≠ id))
    let r := removeServing id rest
    if ms.isEmpty then (r.1, p.1 :: r.2)
    else ((p.1, ⟨p.2.type, ms⟩) :: r.1, r.2)

def CropRegistry.removeMutationFromCrops (r : CropRegistry) (id : String) :
    CropRegistry × List Pos :=
  let p := removeServing id r.crops
  (⟨p.1⟩, p.2)

def CropRegistry.getSharedCount (r : CropRegistry) : Nat :=
  (r.crops.filter (fun p => decide (1 < p.2.mutations.length))).length

def CropRegistry.getTotalCount (r : CropRegistry) : Nat :=
  r.crops.length

/-- The part of the instance id before the first underscore:
the split-at-underscore-take-head operation of getMutationIdAt. -/
def headBeforeUnderscore (s : String) : String :=
  (s.toList.takeWhile (fun c => decide (c ≠ '_'))).asString

/-- layoutOptimizer/MutationRegistry: instance map plus cell back-map. -/
structure MutationRegistry where
  mutations : List (String × MutationPlacement)
  cellToMutation : List (Pos × String)
deriving DecidableEq

/-- getMutationIdAt: look up the instance id covering a cell and return the
part before the first underscore; an empty instance id is treated as
missing, mirroring the falsy check of the code. -/
def MutationRegistry.getMutationIdAt (r : MutationRegistry) (q : Pos) :
    Option String :=
  match alookup r.cellToMutation q with
  | none => none
  | some inst => if inst = "" then none else some (headBeforeUnderscore inst)

def MutationRegistry.getPlacement (r : MutationRegistry) (i : String) :
    Option MutationPlacement :=
  alookup r.mutations i

def MutationRegistry.place (r : MutationRegistry) (pl : MutationPlacement) :
    MutationRegistry :=
  { mutations := mapSet r.mutations pl.instanceId pl,
    cellToMutation :=
      (rectCells pl.position.1 pl.position.2 pl.size.1 pl.size.2).foldl
        (fun m q => mapSet m q pl.instanceId) r.cellToMutation }

def MutationRegistry.remove (r : MutationRegistry) (i : String) :
    MutationRegistry × Option MutationPlacement :=
  match alookup r.mutations i with
  | none => (r, none)
  | some pl =>
    ({ mutations := mapDelete r.mutations i,
       cellToMutation :=
         (rectCells pl.position.1 pl.position.2 pl.size.1 pl.size.2).foldl
           (fun m q => mapDelete m q) r.cellToMutation }, some pl)

def MutationRegistry.getAll (r : MutationRegistry) : List MutationPlacement :=
  r.mutations.map (fun p => p.2)

/-- layoutOptimizer/PlacementContext: the optimizer State. -/
structure PlacementContext where
  grid : Grid
  crops : CropRegistry
  mutations : MutationRegistry
  emptyZones : List Pos
deriving DecidableEq

def PlacementContext.new (unlocked : List Pos) : PlacementContext :=
  ⟨⟨unlocked, []⟩, ⟨[]⟩, ⟨[], []⟩, []⟩

def PlacementContext.isCellFreeForCrop (c : PlacementContext) (q : Pos) : Bool :=
  decide (inBounds q) && c.grid.isFree q && decide (q ∉ c.emptyZones)
    && !(c.crops.hasCrop q)

def PlacementContext.markEmptyZone (c : PlacementContext) (q : Pos) :
    PlacementContext :=
  if c.grid.isUnlocked q then { c with emptyZones := setAdd c.emptyZones q }
  else c

/-- Parsed conditions of a mutation (layoutOptimizer/types). -/
structure ParsedConditions where
  crops : List (String × Nat)
  mutations : List (String × Nat)
  requiresIsolation : Bool
deriving DecidableEq

/-- ParsedMutation of layoutOptimizer/types. -/
structure ParsedMutation where
  id : String
  name : String
  size : Nat × Nat
  conditions : ParsedConditions
  effects : List String
deriving DecidableEq

/-- FeasiblePlacement of layoutOptimizer/types. -/
structure FeasiblePlacement where
  position : Pos
  freeCells : List Pos
  satisfiedCrops : List (String × List Pos)
  satisfiedMutations : List (String × List Pos)
  cropsNeeded : List (String × Nat)
deriving DecidableEq

/-- Accumulator of the single ring scan of checkFeasibility. -/
structure ScanState where
  freeCells : List Pos
  satisfiedCrops : List (String × List Pos)
  satisfiedMutations : List (String × List Pos)
  checkedMutations : List String
deriving DecidableEq

namespace FeasibilityChecker

/-- Free-cell branch of the ring scan. -/
def scanFree (c : PlacementContext) (st : ScanState) (q : Pos) : ScanState :=
  if c.isCellFreeForCrop q then { st with freeCells := st.freeCells ++ [q] }
  else st

/-- Existing-mutation branch of the ring scan (reached when the cell holds
no crop of a required kind). -/
def scanMut (c : PlacementContext) (m : ParsedMutation) (st : ScanState)
    (q : Pos) : ScanState :=
  match c.mutations.getMutationIdAt q with
  | some mutId =>
    if (alookup m.conditions.mutations mutId).isSome
        ∧ mutId ∉ st.checkedMutations then
      { st with
        checkedMutations := st.checkedMutations ++ [mutId],
        satisfiedMutations := pushEntry st.satisfiedMutations mutId q }
    else scanFree c st q
  | none => scanFree c st q

/-- One step of the ring scan of checkFeasibility: out-of-bounds cells are
skipped, then crop, mutation and free-cell branches in order. -/
def scanCell (c : PlacementContext) (m : ParsedMutation) (st : ScanState)
    (q : Pos) : ScanState :=
  if inBounds q then
    match c.crops.getCrop q with
    | some crop =>
      if (alookup m.conditions.crops crop.type).isSome then
        { st with satisfiedCrops := pushEntry st.satisfiedCrops crop.type q }
      else scanMut c m st q
    | none => scanMut c m st q
  else st

/-- checkFeasibility of layoutOptimizer/FeasibilityChecker. -/
def checkFeasibility (c : PlacementContext) (m : ParsedMutation) (x y : Int) :
    Option FeasiblePlacement :=
  let w := m.size.1
  let h := m.size.2
  if c.grid.canFitRect x y w h then
    if (rectCells x y w h).any (fun q => decide (q ∈ c.emptyZones)) then none
    else if m.conditions.requiresIsolation then
      if (ringCells x y w h).any
          (fun q => decide (inBounds q) && c.crops.hasCrop q) then none
      else some ⟨(x, y), [], [], [], []⟩
    else
      let st := (ringCells x y w h).foldl (scanCell c m) ⟨[], [], [], []⟩
      let cropsNeeded := m.conditions.crops.filterMap (fun p =>
        let satisfied := ((alookup st.satisfiedCrops p.1).getD []).length
        if 0 < p.2 - satisfied then some (p.1, p.2 - satisfied) else none)
      if m.conditions.mutations.any (fun p =>
          decide (((alookup st.satisfiedMutations p.1).getD []).length < p.2))
        then none
      else if decide (st.freeCells.length <
          (cropsNeeded.map (fun p => p.2)).foldl (· + ·) 0) then none
      else some ⟨(x, y), st.freeCells, st.satisfiedCrops,
                 st.satisfiedMutations, cropsNeeded⟩
  else none

end FeasibilityChecker

namespace Placer

/-- First crop phase of executePlacement: add the instance id to the
serving set of the first required-count cells of every satisfied crop
kind, recording the pairs that had a crop record. -/
def registerSatisfiedCrops (m : ParsedMutation) (f : FeasiblePlacement)
    (instanceId : String) (c : PlacementContext) :
    PlacementContext × List (Pos × String) :=
  f.satisfiedCrops.foldl
    (fun acc entry =>
      let required := (alookup m.conditions.crops entry.1).getD 0
      (entry.2.take required).foldl
        (fun acc2 pos =>
          match acc2.1.crops.getCrop pos with
          | some crop =>
            ({ acc2.1 with crops :=
                ⟨mapSet acc2.1.crops.crops pos
                  ⟨crop.type, setAdd crop.mutations instanceId⟩⟩ },
             acc2.2 ++ [(pos, entry.1)])
          | none => acc2) acc)
    (c, [])

/-- Second crop phase of executePlacement: walk cropsNeeded, consuming
freeCells in order through a running cell index. -/
def placeNeededCrops (instanceId : String) :
    List (String × Nat) → List Pos → PlacementContext →
    PlacementContext × List (Pos × String)
  | [], _, c => (c, [])
  | p :: rest, free, c =>
    let used := free.take p.2
    let c2 := used.foldl
      (fun cc cell =>
        { cc with
          crops := cc.crops.placeCrop cell p.1 instanceId,
          grid := cc.grid.occupy cell }) c
    let r := placeNeededCrops instanceId rest (free.drop p.2) c2
    (r.1, used.map (fun cell => (cell, p.1)) ++ r.2)

/-- executePlacement of the Placer: occupy the footprint, then either mark
the isolation halo or register and place crops, and record the placement. -/
def executePlacement (c : PlacementContext) (m : ParsedMutation)
    (f : FeasiblePlacement) (instanceId : String) :
    PlacementContext × MutationPlacement :=
  let w := m.size.1
  let h := m.size.2
  let x := f.position.1
  let y := f.position.2
  let c1 := { c with grid := c.grid.occupyRect x y w h }
  if m.conditions.requiresIsolation then
    let c2 := (ringCells x y w h).foldl PlacementContext.markEmptyZone c1
    let pl : MutationPlacement := ⟨m.id, instanceId, f.position, m.size, [], true⟩
    ({ c2 with mutations := c2.mutations.place pl }, pl)
  else
    let r1 := registerSatisfiedCrops m f instanceId c1
    let r2 := placeNeededCrops instanceId f.cropsNeeded f.freeCells r1.1
    let pl : MutationPlacement :=
      ⟨m.id, instanceId, f.position, m.size, r1.2 ++ r2.2, false⟩
    ({ r2.1 with mutations := r2.1.mutations.place pl }, pl)

/-- removePlacement of the Placer: drop the placement, release its
footprint, drop the instance from every serving set and release orphaned
crop cells.  Empty zones are not released. -/
def removePlacement (c : PlacementContext) (instanceId : String) :
    PlacementContext × Option MutationPlacement :=
  let r := c.mutations.remove instanceId
  match r.2 with
  | none => (c, none)
  | some pl =>
    let c1 := { c with mutations := r.1 }
    let c2 := { c1 with grid :=
      c1.grid.releaseRect pl.position.1 pl.position.2 pl.size.1 pl.size.2 }
    let rc := c2.crops.removeMutationFromCrops instanceId
    let c3 := { c2 with crops := rc.1 }
    let c4 := rc.2.foldl (fun cc q => { cc with grid := cc.grid.release q }) c3
    (c4, some pl)

end Placer

/-- A raw condition value: a number or the opaque special string. -/
inductive CondVal where
  | num (n : Nat)
  | str (s : String)
deriving DecidableEq

/-- Raw mutation catalog record (data/mutationsData). -/
structure MutationData where
  name : String
  size : String
  ground : String
  drops : Option (List (String × Nat))
  effects : List String
  conditions : List (String × CondVal)
deriving DecidableEq

open CondVal in
/-- MUTATIONS_DATA of data/mutationsData, in source order. -/
def MUTATIONS_DATA : List (String × MutationData) := [
  ("ashwreath", ⟨"Ashwreath", "1x1", "soul_sand", some [("nether_wart", 1200)],
    ["improved_harvest_boost", "xp_loss"],
    [("nether_wart", num 4), ("fire", num 4)]⟩),
  ("choconut", ⟨"Choconut", "1x1", "farmland", some [("cocoa_beans", 800)],
    ["immunity"], [("cocoa_beans", num 4)]⟩),
  ("dustgrain", ⟨"Dustgrain", "1x1", "farmland", some [("wheat", 400)],
    ["harvest_boost"], [("wheat", num 4)]⟩),
  ("gloomgourd", ⟨"Gloomgourd", "1x1", "farmland",
    some [("pumpkin", 170), ("melon_slice", 800)],
    ["water_retain", "bonus_drops"], [("pumpkin", num 1), ("melon", num 1)]⟩),
  ("lonelily", ⟨"Lonelily", "1x1", "farmland",
    some [("potato", 600), ("carrot", 700), ("pumpkin", 340)],
    ["bonus_drops"], [("adjacent_crops", num 0)]⟩),
  ("scourroot", ⟨"Scourroot", "1x1", "farmland",
    some [("potato", 600), ("carrot", 700)],
    ["immunity", "xp_boost"], [("potato", num 2), ("carrot", num 2)]⟩),
  ("shadevine", ⟨"Shadevine", "1x1", "farmland",
    some [("cactus", 300), ("sugar_cane", 400)],
    ["improved_water_retain", "improved_xp_boost", "harvest_loss"],
    [("cactus", num 2), ("sugar_cane", num 2)]⟩),
  ("veilshroom", ⟨"Veilshroom", "1x1", "mycelium",
    some [("brown_mushroom", 190), ("red_mushroom", 190)],
    ["improved_harvest_boost", "water_drain"],
    [("red_mushroom", num 2), ("brown_mushroom", num 2)]⟩),
  ("witherbloom", ⟨"Witherbloom", "1x1", "soul_sand", some [("wild_rose", 1600)],
    ["effect_spread"], [("dead_plant", num 8)]⟩),
  ("chocoberry", ⟨"Chocoberry", "1x1", "farmland",
    some [("cocoa_beans", 400), ("pumpkin", 170), ("melon_slice", 1600)],
    ["water_retain"], [("choconut", num 6), ("gloomgourd", num 2)]⟩),
  ("cindershade", ⟨"Cindershade", "1x1", "soul_sand",
    some [("nether_wart", 1200), ("wild_rose", 800)],
    ["effect_spread", "improved_harvest_boost", "xp_loss"],
    [("ashwreath", num 4), ("witherbloom", num 4)]⟩),
  ("coalroot", ⟨"Coalroot", "1x1", "farmland", none,
    ["xp_boost"], [("ashwreath", num 5), ("scourroot", num 3)]⟩),
  ("creambloom", ⟨"Creambloom", "1x1", "farmland", none,
    ["immunity"], [("choconut", num 8)]⟩),
  ("duskbloom", ⟨"Duskbloom", "1x1", "farmland", none,
    ["bonus_drops"],
    [("moonflower", num 2), ("shadevine", num 2), ("sunflower", num 2),
     ("dustgrain", num 2)]⟩),
  ("thornshade", ⟨"Thornshade", "1x1", "farmland", none,
    ["effect_spread"], [("wild_rose", num 4), ("veilshroom", num 4)]⟩),
  ("blastberry", ⟨"Blastberry", "1x1", "sand", none,
    ["immunity", "improved_harvest_boost", "xp_loss"],
    [("chocoberry", num 5), ("ashwreath", num 3)]⟩),
  ("cheesebite", ⟨"Cheesebite", "1x1", "farmland", none,
    ["improved_water_retain"], [("creambloom", num 4), ("fermento", num 4)]⟩),
  ("chloronite", ⟨"Chloronite", "1x1", "farmland", none,
    ["immunity"], [("coalroot", num 6), ("thornshade", num 2)]⟩),
  ("do_not_eat_shroom", ⟨"Do-not-eat-shroom", "1x1", "farmland", none,
    ["improved_harvest_boost", "water_drain"],
    [("veilshroom", num 4), ("scourroot", num 4)]⟩),
  ("fleshtrap", ⟨"Fleshtrap", "1x1", "farmland", none,
    ["bonus_drops"], [("cindershade", num 4), ("lonelily", num 4)]⟩),
  ("magic_jellybean", ⟨"Magic Jellybean", "1x1", "sand", none,
    ["improved_xp_boost", "harvest_loss"],
    [("sugar_cane", num 5), ("duskbloom", num 3)]⟩),
  ("noctilume", ⟨"Noctilume", "2x2", "farmland", none,
    ["effect_spread", "improved_water_retain", "harvest_loss"],
    [("duskbloom", num 6), ("lonelily", num 2)]⟩),
  ("snoozling", ⟨"Snoozling", "3x3", "farmland", none,
    ["bonus_drops"],
    [("creambloom", num 4), ("dustgrain", num 3), ("witherbloom", num 3),
     ("duskbloom", num 3), ("thornshade", num 3)]⟩),
  ("soggybud", ⟨"Soggybud", "1x1", "farmland", none,
    ["water_retain"], [("melon", num 8)]⟩),
  ("chorus_fruit", ⟨"Chorus Fruit", "1x1", "end_stone", none,
    ["improved_xp_boost", "harvest_loss"],
    [("chloronite", num 5), ("magic_jellybean", num 3)]⟩),
  ("plantboy_advance", ⟨"PlantBoy Advance", "2x2", "farmland", none,
    ["harvest_boost"], [("snoozling", num 6), ("thunderling", num 6)]⟩),
  ("puffercloud", ⟨"Puffercloud", "1x1", "farmland", none,
    ["improved_harvest_boost", "water_drain"],
    [("snoozling", num 2), ("do_not_eat_shroom", num 6)]⟩),
  ("shellfruit", ⟨"Shellfruit", "1x1", "farmland", none,
    ["water_retain", "immunity"],
    [("special", str "explode_turtlellini_with_blastberry")]⟩),
  ("startlevine", ⟨"Startlevine", "1x1", "farmland", none,
    ["improved_water_retain", "improved_xp_boost", "harvest_loss"],
    [("blastberry", num 4), ("cheesebite", num 4)]⟩),
  ("stoplight_petal", ⟨"Stoplight Petal", "1x1", "farmland", none,
    ["effect_spread", "improved_water_retain", "harvest_loss"],
    [("snoozling", num 4), ("noctilume", num 4)]⟩),
  ("thunderling", ⟨"Thunderling", "1x1", "farmland", none,
    ["effect_spread"], [("soggybud", num 5), ("noctilume", num 3)]⟩),
  ("turtlellini", ⟨"Turtlellini", "1x1", "farmland", none,
    ["water_retain", "immunity"], [("soggybud", num 4), ("choconut", num 4)]⟩),
  ("zombud", ⟨"Zombud", "1x1", "soul_sand", none,
    ["effect_spread", "bonus_drops"],
    [("dead_plant", num 4), ("cindershade", num 2), ("fleshtrap", num 2)]⟩),
  ("all_in_aloe", ⟨"All-in Aloe", "1x1", "sand", none,
    ["harvest_boost"], [("magic_jellybean", num 6), ("plantboy_advance", num 2)]⟩),
  ("devourer", ⟨"Devourer", "1x1", "farmland", none,
    ["bonus_drops", "improved_harvest_boost", "water_drain"],
    [("puffercloud", num 4), ("zombud", num 4)]⟩),
  ("glasscorn", ⟨"Glasscorn", "2x2", "sand", none,
    ["immunity", "improved_water_retain", "harvest_loss"],
    [("startlevine", num 6), ("chloronite", num 6)]⟩),
  ("jerryflower", ⟨"Jerryflower", "1x1", "farmland", none,
    [], [("special", str "grow_the_jerryseed")]⟩),
  ("godseed", ⟨"Godseed", "3x3", "farmland", none,
    ["improved_harvest_boost", "improved_water_retain", "improved_xp_boost",
     "immunity", "bonus_drops", "improved_effect_spread"],
    [("special", str "all_positive_crop_effects")]⟩),
  ("phantomleaf", ⟨"Phantomleaf", "1x1", "soul_sand", none,
    ["xp_boost", "immunity"], [("chorus_fruit", num 4), ("shellfruit", num 4)]⟩),
  ("timestalk", ⟨"Timestalk", "1x1", "soul_sand", none,
    ["improved_water_retain", "improved_xp_boost", "harvest_loss"],
    [("stoplight_petal", num 4), ("chorus_fruit", num 2), ("shellfruit", num 2)]⟩)]

/-- getMutationData of data/mutationsData: the godseed id is answered by a
fixed literal, every other id by the catalog (none models undefined). -/
def getMutationData (id : String) : Option MutationData :=
  if id = "godseed" then
    some ⟨"Godseed", "3x3", "farmland", none,
      ["improved_harvest_boost", "improved_water_retain", "improved_xp_boost",
       "immunity", "bonus_drops", "improved_effect_spread"],
      [("special", CondVal.str "all_positive_crop_effects")]⟩
  else alookup MUTATIONS_DATA id

/-- BASE_CROPS of data/constants. -/
def BASE_CROPS : List String :=
  ["wheat", "potato", "carrot", "pumpkin", "melon", "cocoa_beans", "sugar_cane",
   "cactus", "nether_wart", "red_mushroom", "brown_mushroom", "moonflower",
   "sunflower", "wild_rose"]

/-- EXTRA_CONDITIONS of data/constants. -/
def EXTRA_CONDITIONS : List String := ["fire", "dead_plant", "fermento"]

/-- GODSEED_REQUIRED_EFFECT_TYPES of mutationUtils. -/
def GODSEED_REQUIRED_EFFECT_TYPES : List String :=
  ["harvest_boost", "water_retain", "xp_boost", "immunity", "bonus_drops",
   "effect_spread"]

/-- NEGATIVE_EFFECTS of mutationUtils. -/
def NEGATIVE_EFFECTS : List String := ["xp_loss", "harvest_loss", "water_drain"]

/-- effectSatisfiesType of mutationUtils. -/
def effectSatisfiesType (effect requiredType : String) : Bool :=
  decide (effect = requiredType) || decide (effect = "improved_" ++ requiredType)

/-- Split a character list at every occurrence of the separator, the
string split the size parser relies on. -/
def splitOnChar (c : Char) : List Char → List (List Char)
  | [] => [[]]
  | a :: t =>
    let r := splitOnChar c t
    if a = c then [] :: r
    else
      match r with
      | h :: t2 => (a :: h) :: t2
      | [] => [[a]]

/-- Value of a decimal digit. -/
def digitVal (c : Char) : Option Nat :=
  if '0' ≤ c ∧ c ≤ '9' then some (c.toNat - '0'.toNat) else none

/-- The JavaScript Number conversion restricted to the digit strings the
size parser feeds it: the empty string reads as zero, digit strings read
as their value, anything else (NaN) is modelled as zero. -/
def jsNumberToNat (l : List Char) : Nat :=
  ((l.foldl (fun acc c =>
    match acc, digitVal c with
    | some n, some d => some (n * 10 + d)
    | _, _ => none) (some 0)).getD 0)

/-- Size-string parse: the split-at-x-map-Number step shared by the parser
and the godseed helper sort. -/
def parseSizePair (size : String) : Nat × Nat :=
  let parts := (splitOnChar 'x' size.toList).map jsNumberToNat
  (parts.getD 0 0, parts.getD 1 0)

/-- Stable insertion into a list sorted by the boolean comparator, keeping
earlier elements in front of later equal ones. -/
def stableInsert {α : Type} (le : α → α → Bool) (a : α) : List α → List α
  | [] => [a]
  | b :: t => if le b a then b :: stableInsert le a t else a :: b :: t

/-- Stable sort matching the JavaScript stable Array.sort. -/
def stableSortBy {α : Type} (le : α → α → Bool) (l : List α) : List α :=
  l.foldl (fun acc a => stableInsert le a acc) []

/-- Candidate record of getPositiveEffectMutations. -/
structure GodseedCandidate where
  id : String
  effects : List String
  size : String
deriving DecidableEq

/-- getPositiveEffectMutations of mutationUtils: catalog entries without
special conditions, isolation or negative effects, with at least one
effect, sorted by area ascending then effect count descending. -/
def getPositiveEffectMutations : List GodseedCandidate :=
  let unsorted := MUTATIONS_DATA.filterMap (fun p =>
    if (alookup p.2.conditions "special").isSome then none
    else if alookup p.2.conditions "adjacent_crops" = some (CondVal.num 0) then none
    else if p.2.effects.any (fun e => decide (e ∈ NEGATIVE_EFFECTS)) then none
    else if p.2.effects.isEmpty then none
    else some ⟨p.1, p.2.effects, p.2.size⟩)
  stableSortBy (fun a b =>
    let sa := (parseSizePair a.size).1 * (parseSizePair a.size).2
    let sb := (parseSizePair b.size).1 * (parseSizePair b.size).2
    if sa = sb then decide (b.effects.length ≤ a.effects.length)
    else decide (sa < sb)) unsorted

/-- getCoveredEffectTypes of mutationUtils. -/
def getCoveredEffectTypes (mutationIds : List String) : List String :=
  mutationIds.foldl (fun covered mutId =>
    match getMutationData mutId with
    | none => covered
    | some mutation =>
      GODSEED_REQUIRED_EFFECT_TYPES.foldl (fun cov reqType =>
        if mutation.effects.any (fun e => effectSatisfiesType e reqType) then
          setAdd cov reqType
        else cov) covered) []

/-- One round of the greedy set-cover of calculateGodseedHelpers: the
first candidate covering the strictly largest number of still-missing
types (the code only replaces the best on strict improvement). -/
def godseedBestCandidate (chosen : List (String × Nat))
    (relevant : List String) (stillMissing : List String) :
    Option GodseedCandidate × Nat :=
  getPositiveEffectMutations.foldl (fun best cand =>
    if (alookup chosen cand.id).isSome ∨ cand.id ∈ relevant then best
    else
      let newCoverage :=
        (stillMissing.filter (fun reqType =>
          cand.effects.any (fun e => effectSatisfiesType e reqType))).length
      if best.2 < newCoverage then (some cand, newCoverage) else best)
    (none, 0)

/-- The while loop of calculateGodseedHelpers.  Each productive round
covers at least one missing type, so the list of missing types is fuel
enough; the loop stops early when no candidate makes progress. -/
def godseedGreedyLoop (relevant : List String) :
    Nat → List String → List (String × Nat) → List (String × Nat)
  | 0, _, chosen => chosen
  | n + 1, stillMissing, chosen =>
    if stillMissing.isEmpty then chosen
    else
      match godseedBestCandidate chosen relevant stillMissing with
      | (none, _) => chosen
      | (some best, coverage) =>
        if coverage = 0 then chosen
        else
          godseedGreedyLoop relevant n
            (stillMissing.filter (fun reqType =>
              !(best.effects.any (fun e => effectSatisfiesType e reqType))))
            (chosen ++ [(best.id, 1)])

/-- calculateGodseedHelpers of mutationUtils. -/
def calculateGodseedHelpers (selectedMutations : List String) :
    List (String × Nat) :=
  let relevant := selectedMutations.filter (fun id => decide (id ≠ "godseed"))
  let coveredTypes := getCoveredEffectTypes relevant
  let missingTypes :=
    GODSEED_REQUIRED_EFFECT_TYPES.filter (fun t => decide (t ∉ coveredTypes))
  if missingTypes.isEmpty then []
  else godseedGreedyLoop relevant (missingTypes.length + 1) missingTypes []

namespace MutationParser

/-- getRawMutation of the MutationParser: for the godseed id, a record
whose conditions are the computed helpers; otherwise the persistent
catalog record. -/
def getRawMutation (unlockedMutations : List String) (id : String) :
    Option MutationData :=
  if id = "godseed" then
    some ⟨"Godseed", "3x3", "farmland", none,
      ["improved_harvest_boost", "improved_water_retain", "improved_xp_boost",
       "immunity", "bonus_drops", "improved_effect_spread"],
      (calculateGodseedHelpers unlockedMutations).map
        (fun p => (p.1, CondVal.num p.2))⟩
  else getMutationData id

/-- isCropOrCondition of the MutationParser. -/
def isCropOrCondition (key : String) : Bool :=
  decide (key ∈ BASE_CROPS) || decide (key ∈ EXTRA_CONDITIONS)

/-- parse of the MutationParser (none models the crash on an unknown id;
the per-id cache is semantically transparent). -/
def parse (unlockedMutations : List String) (id : String) :
    Option ParsedMutation :=
  match getRawMutation unlockedMutations id with
  | none => none
  | some raw =>
    let wh := parseSizePair raw.size
    let init : List (String × Nat) × List (String × Nat) × Bool := ([], [], false)
    let acc := raw.conditions.foldl (fun acc p =>
      if p.1 = "adjacent_crops" then
        if p.2 = CondVal.num 0 then (acc.1, acc.2.1, true) else acc
      else if p.1 = "special" then acc
      else
        match p.2 with
        | CondVal.str _ => acc
        | CondVal.num n =>
          if isCropOrCondition p.1 then
            (acc.1 ++ [(p.1, n)], acc.2.1, acc.2.2)
          else (acc.1, acc.2.1 ++ [(p.1, n)], acc.2.2)) init
    some ⟨id, raw.name, wh, ⟨acc.1, acc.2.1, acc.2.2⟩, raw.effects⟩

/-- hasSpreadEffect of the MutationParser. -/
def hasSpreadEffect (m : ParsedMutation) : Bool :=
  m.effects.any (fun e =>
    decide (e = "effect_spread") || decide (e = "improved_effect_spread"))

/-- The positive-effect vocabulary of MutationParser.hasPositiveEffect. -/
def positiveEffectsList : List String :=
  ["harvest_boost", "improved_harvest_boost", "water_retain",
   "improved_water_retain", "xp_boost", "improved_xp_boost", "immunity",
   "bonus_drops", "effect_spread", "improved_effect_spread"]

/-- The negative-effect vocabulary of MutationParser.hasPositiveEffect. -/
def negativeEffectsList : List String := ["xp_loss", "harvest_loss", "water_drain"]

/-- hasPositiveEffect of the MutationParser, exactly as written: some
effect is in the positive list and that same effect is not in the
negative list. -/
def hasPositiveEffect (m : ParsedMutation) : Bool :=
  m.effects.any (fun e =>
    decide (e ∈ positiveEffectsList) && !(decide (e ∈ negativeEffectsList)))

end MutationParser

/-- StrategyProfile of layoutOptimizer/types; decimal weights become
rationals. -/
structure StrategyProfile where
  name : String
  sharingWeight : ℚ
  compactnessWeight : ℚ
  synergyWeight : ℚ
  cornerWeight : ℚ
  randomness : ℚ
deriving DecidableEq

/-- STRATEGIES of layoutOptimizer/constants. -/
def STRATEGIES : List StrategyProfile := [
  ⟨"compact-balanced", 1, 2, 1/2, 1, 0⟩,
  ⟨"ultra-compact", 1/2, 3, 3/10, 1/2, 0⟩,
  ⟨"compact-sharing", 3/2, 2, 1/2, 1/2, 0⟩,
  ⟨"tight-cluster", 4/5, 5/2, 1/2, 1, 0⟩,
  ⟨"exploration", 1, 3/2, 1/2, 1, 1/5⟩]

/-- STRATEGIES at index zero, the balanced profile the orchestrator reuses. -/
def STRATEGY0 : StrategyProfile := STRATEGIES.headD ⟨"", 0, 0, 0, 0, 0⟩

namespace BulkPlacer

open FeasibilityChecker Placer

/-- The pre-lay idiom of every crop pattern: register the crop for the
sentinel pre-placement owner and occupy the cell. -/
def preLayCrop (c : PlacementContext) (q : Pos) (t : String) : PlacementContext :=
  { c with crops := c.crops.placeCrop q t "__pre__", grid := c.grid.occupy q }

/-- The indices produced by a for loop from start below 10 with the given
step, as the patterns iterate rows and columns. -/
def stepRange (start step : Nat) : List Nat :=
  (List.range 10).filter (fun i => decide (start ≤ i ∧ (i - start) % step = 0))

/-- Anchor coordinates 0 .. 10 - d of the placement loops. -/
def anchorRange (d : Nat) : List Int := intRange 0 (11 - d)

/-- The break-on-hit crop selection of the diagonal pattern: walk the
crop-type list subtracting counts until the index falls inside one. -/
def pickCropByIdx : List (String × Nat) → Nat → Option String
  | [], _ => none
  | p :: rest, idx =>
    if idx < p.2 then some p.1 else pickCropByIdx rest (idx - p.2)

/-- Candidate scoring of fillMutations: count, per crop kind and up to its
required count, the adjacent pre-laid crops, ten points each; feasible
candidates must have every crop requirement fully adjacent. -/
def fillCandidateScore (c : PlacementContext) (m : ParsedMutation)
    (x y : Int) : Option Nat :=
  let scan := (ringCells x y m.size.1 m.size.2).foldl
    (fun (acc : List (String × Nat) × Nat) q =>
      if inBounds q then
        match c.crops.getCrop q with
        | some crop =>
          if (alookup m.conditions.crops crop.type).isSome then
            let current := (alookup acc.1 crop.type).getD 0
            let needed := (alookup m.conditions.crops crop.type).getD 0
            if current < needed then
              (mapSet acc.1 crop.type (current + 1), acc.2 + 10)
            else acc
          else acc
        | none => acc
      else acc) ([], 0)
  if m.conditions.crops.all (fun p => decide (p.2 ≤ (alookup scan.1 p.1).getD 0))
  then some scan.2 else none

/-- fillMutations of the BulkPlacer: collect candidate anchors with their
crop-reuse scores, sort stably by score descending, then place greedily up
to the requested quantity, re-checking feasibility before each placement. -/
def fillMutations (c : PlacementContext) (m : ParsedMutation)
    (maxQuantity : Nat) (placements : List MutationPlacement) :
    PlacementContext × List MutationPlacement :=
  let candidates := (anchorRange m.size.2).flatMap (fun y =>
    (anchorRange m.size.1).filterMap (fun x =>
      if c.grid.canFitRect x y m.size.1 m.size.2 then
        (fillCandidateScore c m x y).map (fun s => (x, y, s))
      else none))
  let sorted := stableSortBy (fun a b => decide (b.2.2 ≤ a.2.2)) candidates
  let r := sorted.foldl
    (fun (acc : PlacementContext × List MutationPlacement × Nat) cand =>
      if maxQuantity ≤ acc.2.2 then acc
      else
        match checkFeasibility acc.1 m cand.1 cand.2.1 with
        | some feasible =>
          let instanceId := m.id ++ "_" ++ toString acc.2.2
          let e := executePlacement acc.1 m feasible instanceId
          (e.1, acc.2.1 ++ [e.2], acc.2.2 + 1)
        | none => acc) (c, placements, 0)
  (r.1, r.2.1)

/-- alternatingRowPattern of the BulkPlacer (falls through to the striped
pattern unless there are exactly two crop kinds). -/
def alternatingRowPattern (stripedFallback : PlacementContext × List MutationPlacement)
    (m : ParsedMutation) (quantity : Nat) (unlocked : List Pos)
    (cropTypes : List (String × Nat)) :
    PlacementContext × List MutationPlacement :=
  match cropTypes with
  | [c1, c2] =>
    let ctx := (stepRange 0 3).foldl (fun ctx (y : Nat) =>
      (List.range 10).foldl (fun ctx (x : Nat) =>
        let q : Pos := ((x : Int), (y : Int))
        if ctx.grid.isFree q then
          preLayCrop ctx q (if (x + y / 3) % 2 = 0 then c1.1 else c2.1)
        else ctx) ctx) (PlacementContext.new unlocked)
    fillMutations ctx m quantity []
  | _ => stripedFallback

/-- sparseGridPattern of the BulkPlacer. -/
def sparseGridPattern (m : ParsedMutation) (quantity : Nat)
    (unlocked : List Pos) (cropTypes : List (String × Nat)) :
    PlacementContext × List MutationPlacement :=
  let ctx0 := PlacementContext.new unlocked
  let ctx :=
    match cropTypes with
    | [c1, c2] =>
      (stepRange 1 3).foldl (fun ctx (y : Nat) =>
        ((List.range 9).filter (fun i => decide (i % 3 = 0))).foldl
          (fun ctx (x : Nat) =>
          let q1 : Pos := ((x : Int), (y : Int))
          let q2 : Pos := ((x : Int) + 1, (y : Int))
          let ctx1 := if ctx.grid.isFree q1 then preLayCrop ctx q1 c1.1 else ctx
          if ctx1.grid.isFree q2 then preLayCrop ctx1 q2 c2.1 else ctx1) ctx)
        ctx0
    | _ => ctx0
  fillMutations ctx m quantity []

/-- maxDensityPattern of the BulkPlacer. -/
def maxDensityPattern (m : ParsedMutation) (quantity : Nat)
    (unlocked : List Pos) (cropTypes : List (String × Nat)) :
    PlacementContext × List MutationPlacement :=
  let ctx0 := PlacementContext.new unlocked
  let ctx :=
    match cropTypes with
    | [c1, c2] =>
      (stepRange 1 3).foldl (fun ctx (y : Nat) =>
        ((List.range 9).filter (fun i => decide (1 ≤ i ∧ (i - 1) % 3 = 0))).foldl
          (fun ctx (x : Nat) =>
            let q1 : Pos := ((x : Int), (y : Int))
            let q2 : Pos := ((x : Int) + 1, (y : Int))
            let ctx1 := if ctx.grid.isFree q1 then preLayCrop ctx q1 c1.1 else ctx
            if ctx1.grid.isFree q2 then preLayCrop ctx1 q2 c2.1 else ctx1) ctx)
        ctx0
    | _ => ctx0
  fillMutations ctx m quantity []

/-- optimalTwoCropPattern of the BulkPlacer: pair crops at rows and
columns 1, 4, 7 plus four fixed edge cells. -/
def optimalTwoCropPattern (m : ParsedMutation) (quantity : Nat)
    (unlocked : List Pos) (cropTypes : List (String × Nat)) :
    PlacementContext × List MutationPlacement :=
  let ctx0 := PlacementContext.new unlocked
  let ctx :=
    match cropTypes with
    | [c1, c2] =>
      let afterGrid := ([1, 4, 7] : List Int).foldl (fun ctx y =>
        ([1, 4, 7] : List Int).foldl (fun ctx x =>
          let ctx1 := if ctx.grid.isFree (x, y) then preLayCrop ctx (x, y) c1.1
                      else ctx
          if ctx1.grid.isFree (x + 1, y) then preLayCrop ctx1 (x + 1, y) c2.1
          else ctx1) ctx) ctx0
      let e1 := if afterGrid.grid.isFree (0, 0) then
                  preLayCrop afterGrid (0, 0) c1.1 else afterGrid
      let e2 := if e1.grid.isFree (1, 0) then preLayCrop e1 (1, 0) c2.1 else e1
      let e3 := if e2.grid.isFree (8, 0) then preLayCrop e2 (8, 0) c1.1 else e2
      if e3.grid.isFree (9, 0) then preLayCrop e3 (9, 0) c2.1 else e3
    | _ => ctx0
  fillMutations ctx m quantity []

/-- Ceiling square root used by the dense grid spacing. -/
def ceilSqrt (n : Nat) : Nat :=
  if Nat.sqrt n * Nat.sqrt n = n then Nat.sqrt n else Nat.sqrt n + 1

/-- denseGridPattern of the BulkPlacer. -/
def denseGridPattern (m : ParsedMutation) (quantity : Nat)
    (unlocked : List Pos) (cropTypes : List (String × Nat)) :
    PlacementContext × List MutationPlacement :=
  let total := (cropTypes.map (fun p => p.2)).foldl (· + ·) 0
  let spacing := ceilSqrt (total + 1)
  let ctx0 := PlacementContext.new unlocked
  let rows := (stepRange 0 spacing).foldl (fun ctx (y : Nat) =>
    (List.range 10).foldl (fun ctx (x : Nat) =>
      let q : Pos := ((x : Int), (y : Int))
      if ctx.grid.isFree q then
        let cropIdx := (x / spacing) % cropTypes.length
        if cropIdx < cropTypes.length then
          match cropTypes.get? (cropIdx % cropTypes.length) with
          | some ct => preLayCrop ctx q ct.1
          | none => ctx
        else ctx
      else ctx) ctx) ctx0
  let both := (stepRange 0 spacing).foldl (fun ctx (x : Nat) =>
    (List.range 10).foldl (fun ctx (y : Nat) =>
      let q : Pos := ((x : Int), (y : Int))
      if ctx.grid.isFree q then
        let cropIdx := (y / spacing + 1) % cropTypes.length
        if cropIdx < cropTypes.length then
          match cropTypes.get? cropIdx with
          | some ct => preLayCrop ctx q ct.1
          | none => ctx
        else ctx
      else ctx) ctx) rows
  fillMutations both m quantity []

/-- diagonalPattern of the BulkPlacer. -/
def diagonalPattern (m : ParsedMutation) (quantity : Nat)
    (unlocked : List Pos) (cropTypes : List (String × Nat)) :
    PlacementContext × List MutationPlacement :=
  let total := (cropTypes.map (fun p => p.2)).foldl (· + ·) 0
  let spacing := total + 1
  let ctx := (List.range 10).foldl (fun ctx (y : Nat) =>
    (List.range 10).foldl (fun ctx (x : Nat) =>
      let q : Pos := ((x : Int), (y : Int))
      let diagonalIdx := (x + y) % spacing
      if diagonalIdx < total ∧ ctx.grid.isFree q then
        match pickCropByIdx cropTypes diagonalIdx with
        | some t => preLayCrop ctx q t
        | none => ctx
      else ctx) ctx) (PlacementContext.new unlocked)
  fillMutations ctx m quantity []

/-- stripedPattern of the BulkPlacer.  The selected crop defaults to the
first crop kind exactly as the initializer of the code does. -/
def stripedPattern (m : ParsedMutation) (quantity : Nat)
    (unlocked : List Pos) (cropTypes : List (String × Nat)) :
    PlacementContext × List MutationPlacement :=
  let total := (cropTypes.map (fun p => p.2)).foldl (· + ·) 0
  let spacing := total + 1
  let ctx := (List.range 10).foldl (fun ctx y =>
    if y % spacing < total then
      let selected :=
        match pickCropByIdx cropTypes (y % spacing) with
        | some t => t
        | none => (cropTypes.headD ("", 0)).1
      (List.range 10).foldl (fun ctx x =>
        let q : Pos := ((x : Int), (y : Int))
        if ctx.grid.isFree q then preLayCrop ctx q selected else ctx) ctx
    else ctx) (PlacementContext.new unlocked)
  fillMutations ctx m quantity []

/-- checkerboardPattern of the BulkPlacer. -/
def checkerboardPattern (m : ParsedMutation) (quantity : Nat)
    (unlocked : List Pos) (cropTypes : List (String × Nat)) :
    PlacementContext × List MutationPlacement :=
  let totalTypes := cropTypes.length
  let ctx := (List.range 10).foldl (fun ctx (y : Nat) =>
    (List.range 10).foldl (fun ctx (x : Nat) =>
      let q : Pos := ((x : Int), (y : Int))
      let patternIdx := (x + y) % (totalTypes + 1)
      if patternIdx < totalTypes ∧ ctx.grid.isFree q then
        match cropTypes.get? patternIdx with
        | some ct => preLayCrop ctx q ct.1
        | none => ctx
      else ctx) ctx) (PlacementContext.new unlocked)
  fillMutations ctx m quantity []

/-- First feasible anchor in row-major order. -/
def firstFeasible (c : PlacementContext) (m : ParsedMutation) :
    Option (Int × Int × FeasiblePlacement) :=
  (anchorRange m.size.2).firstM (fun y =>
    (anchorRange m.size.1).firstM (fun x =>
      (checkFeasibility c m x y).map (fun f => (x, y, f))))

/-- fallbackPlacement of the BulkPlacer: sequential first-fit placement,
one pass per requested instance. -/
def fallbackPlacement (m : ParsedMutation) (quantity : Nat)
    (unlocked : List Pos) : PlacementContext × List MutationPlacement :=
  (List.range quantity).foldl
    (fun (acc : PlacementContext × List MutationPlacement) i =>
      match firstFeasible acc.1 m with
      | some (_, _, feasible) =>
        let e := executePlacement acc.1 m feasible (m.id ++ "_" ++ toString i)
        (e.1, acc.2 ++ [e.2])
      | none => acc) (PlacementContext.new unlocked, [])

/-- The best-of-patterns loop of placeBulk: run patterns in order, keep
the one with the most placements, and stop early once the requested
quantity is reached. -/
def bestPattern (quantity : Nat) :
    List (Unit → PlacementContext × List MutationPlacement) →
    Option (PlacementContext × List MutationPlacement) →
    Option (PlacementContext × List MutationPlacement)
  | [], best => best
  | p :: rest, best =>
    let result := p ()
    let best2 :=
      match best with
      | none => result
      | some b => if b.2.length < result.2.length then result else b
    if quantity ≤ best2.2.length then some best2
    else bestPattern quantity rest (some best2)

/-- placeBulk of the BulkPlacer (none models the parser crash on an
unknown mutation id). -/
def placeBulk (unlockedMutations : List String) (mutationId : String)
    (quantity : Nat) (unlocked : List Pos) :
    Option (PlacementContext × List MutationPlacement) :=
  match MutationParser.parse unlockedMutations mutationId with
  | none => none
  | some m =>
    if m.conditions.requiresIsolation ∨ 1 < m.size.1 ∨ 1 < m.size.2 then
      some (fallbackPlacement m quantity unlocked)
    else
      let cropTypes := m.conditions.crops
      if cropTypes.isEmpty then some (fallbackPlacement m quantity unlocked)
      else
        let striped := fun (_ : Unit) => stripedPattern m quantity unlocked cropTypes
        let patterns : List (Unit → PlacementContext × List MutationPlacement) :=
          [fun _ => optimalTwoCropPattern m quantity unlocked cropTypes,
           fun _ => maxDensityPattern m quantity unlocked cropTypes,
           fun _ => sparseGridPattern m quantity unlocked cropTypes,
           fun _ => alternatingRowPattern (striped ()) m quantity unlocked cropTypes,
           fun _ => diagonalPattern m quantity unlocked cropTypes,
           striped,
           fun _ => denseGridPattern m quantity unlocked cropTypes,
           fun _ => checkerboardPattern m quantity unlocked cropTypes]
        bestPattern quantity patterns none

end BulkPlacer

/-- FitnessState of layoutOptimizer/types. -/
structure FitnessState where
  mutationCount : Nat
  targetCount : Nat
  sharedCropCount : Nat
  totalCrops : Nat
  totalDistance : Nat
  distancePairs : Nat
  synergyCount : Nat
deriving DecidableEq

/-- ScoreBreakdown of layoutOptimizer/types. -/
structure ScoreBreakdown where
  mutationsPlaced : Nat
  mutationsRequested : Nat
  placementRate : ℚ
  totalCropsUsed : Nat
  sharedCrops : Nat
  cropEfficiency : ℚ
  compactnessScore : ℚ
  synergiesFound : Nat
  totalScore : ℚ
deriving DecidableEq

/-- A scored strategy outcome of the MultiStrategyOptimizer. -/
structure MultiStrategyResult where
  ctx : PlacementContext
  score : ScoreBreakdown
  strategy : String
deriving DecidableEq

namespace MultiStrategyOptimizer

open FeasibilityChecker Placer

/-- findDominantMutation: the first target whose quantity reaches seventy
percent of the total. -/
def findDominantMutation (targets : List (String × Nat)) (totalCount : Nat) :
    Option (String × Nat) :=
  targets.find? (fun t => decide ((totalCount : ℚ) * (7 / 10) ≤ (t.2 : ℚ)))

/-- First feasible x in one row of addRemainingMutations; the break of the
code only leaves the inner loop. -/
def firstFeasibleInRow (c : PlacementContext) (m : ParsedMutation) (y : Int) :
    Option FeasiblePlacement :=
  (BulkPlacer.anchorRange m.size.1).firstM (fun x => checkFeasibility c m x y)

/-- addRemainingMutations of the MultiStrategyOptimizer.  Because the
break of the code only exits the x loop, each instance index places once
per row wherever feasible, always under the same instance id; none models
the parser crash on an unknown id. -/
def addRemainingMutations (unlockedMutations : List String)
    (c : PlacementContext) (targets : List (String × Nat)) :
    Option PlacementContext :=
  targets.foldlM (fun c t =>
    match MutationParser.parse unlockedMutations t.1 with
    | none => none
    | some m =>
      some ((List.range t.2).foldl (fun c i =>
        (BulkPlacer.anchorRange m.size.2).foldl (fun c y =>
          match firstFeasibleInRow c m y with
          | some feasible =>
            (executePlacement c m feasible (t.1 ++ "_extra_" ++ toString i)).1
          | none => c) c) c)) c

/-- The greedy-plus-annealing strategies loop followed by the genetic
strategy, folded over an optional incumbent best result exactly as the
tail of MultiStrategyOptimizer.optimize runs after the bulk branch. -/
def strategiesAndGenetic
    (saOptimize : PlacementContext → Nat → StrategyProfile → PlacementContext)
    (greedySolve : List (String × Nat) → List Pos → StrategyProfile →
      PlacementContext)
    (gaOptimize : List (String × Nat) → List Pos → StrategyProfile → Nat →
      PlacementContext)
    (recalculate : PlacementContext → Nat → FitnessState)
    (toBreakdown : FitnessState → ScoreBreakdown)
    (targets : List (String × Nat)) (unlocked : List Pos) (targetCount : Nat)
    (best0 : Option MultiStrategyResult) : Except String MultiStrategyResult :=
  let afterStrategies := STRATEGIES.foldl (fun best profile =>
    let ctx := greedySolve targets unlocked profile
    let optimized := saOptimize ctx targetCount profile
    let score := toBreakdown (recalculate optimized targetCount)
    match best with
    | none => some ⟨optimized, score, profile.name ++ "-sa"⟩
    | some b =>
      if b.score.totalScore < score.totalScore then
        some ⟨optimized, score, profile.name ++ "-sa"⟩
      else some b) best0
  let gaCtx := gaOptimize targets unlocked STRATEGY0 targetCount
  let gaOptimized := saOptimize gaCtx targetCount STRATEGY0
  let gaScore := toBreakdown (recalculate gaOptimized targetCount)
  let final :=
    match afterStrategies with
    | none => some ⟨gaOptimized, gaScore, "genetic-sa"⟩
    | some b =>
      if b.score.totalScore < gaScore.totalScore then
        some ⟨gaOptimized, gaScore, "genetic-sa"⟩
      else some b
  match final with
  | some b => Except.ok b
  | none => Except.error "TypeError: best is null"

/-- MultiStrategyOptimizer.optimize.  The stochastic sub-strategies
(simulated annealing, the greedy solver and the genetic optimizer) and
the fitness calculator are taken as function parameters, so every theorem
below quantifies over all of their behaviours; the orchestration, the
dominant-mutation bulk branch and the comparison against the still-null
best record are embedded from the source.  Errors model runtime throws. -/
def optimize
    (saOptimize : PlacementContext → Nat → StrategyProfile → PlacementContext)
    (greedySolve : List (String × Nat) → List Pos → StrategyProfile →
      PlacementContext)
    (gaOptimize : List (String × Nat) → List Pos → StrategyProfile → Nat →
      PlacementContext)
    (recalculate : PlacementContext → Nat → FitnessState)
    (toBreakdown : FitnessState → ScoreBreakdown)
    (unlockedMutations : List String) (targets : List (String × Nat))
    (unlocked : List Pos) : Except String MultiStrategyResult :=
  let targetCount := (targets.map (fun t => t.2)).foldl (· + ·) 0
  let best0 : Option MultiStrategyResult := none
  match findDominantMutation targets targetCount with
  | some dominant =>
    match BulkPlacer.placeBulk unlockedMutations dominant.1 dominant.2 unlocked with
    | none => Except.error "TypeError: unknown mutation id"
    | some bulkResult =>
      let otherTargets := targets.filter (fun t => decide (t.1 ≠ dominant.1))
      let withOthers :=
        if otherTargets.isEmpty then some bulkResult.1
        else addRemainingMutations unlockedMutations bulkResult.1 otherTargets
      match withOthers with
      | none => Except.error "TypeError: unknown mutation id"
      | some ctx2 =>
        let optimized := saOptimize ctx2 targetCount STRATEGY0
        let score := toBreakdown (recalculate optimized targetCount)
        match best0 with
        | none =>
          -- the code reads best!.score.totalScore while best is still null
          Except.error "TypeError: cannot read score of null"
        | some b =>
          let best1 :=
            if b.score.totalScore < score.totalScore then
              some ⟨optimized, score, "bulk-pattern-sa"⟩
            else some b
          strategiesAndGenetic saOptimize greedySolve gaOptimize recalculate
            toBreakdown targets unlocked targetCount best1
  | none =>
    strategiesAndGenetic saOptimize greedySolve gaOptimize recalculate
      toBreakdown targets unlocked targetCount best0

end MultiStrategyOptimizer

namespace SimulatedAnnealing

/-- Swap two list positions (array destructuring swap of the code). -/
def listSwap {α : Type} (l : List α) (i j : Nat) : List α :=
  match l.get? i, l.get? j with
  | some a, some b => (l.set i b).set j a
  | _, _ => l

/-- The descending Fisher-Yates loop of shuffleArray; the stream entry k
stands for the k-th Math.random draw of the call and is expected in the
unit interval. -/
def shuffleGo {α : Type} (rand : Nat → ℚ) : List α → Nat → Nat → List α
  | l, 0, _ => l
  | l, i + 1, k =>
    let j := (⌊rand k * ((i : ℚ) + 2)⌋).toNat
    shuffleGo rand (listSwap l (i + 1) j) i (k + 1)

/-- shuffleArray of the SimulatedAnnealing class, over an explicit stream
standing for the ambient unseeded Math.random. -/
def shuffleArray {α : Type} (rand : Nat → ℚ) (l : List α) : List α :=
  shuffleGo rand l (l.length - 1) 0

end SimulatedAnnealing

namespace ObjectiveEngine

/-- Extracted requirements of cropSolver.extractRequirements. -/
structure ExtractedRequirements where
  crops : List (String × Nat)
  mutations : List (String × Nat)
  adjacentCrops : Option CondVal
  special : Option CondVal
deriving DecidableEq

/-- extractRequirements of cropSolver: special and adjacent-crop keys are
captured, numeric keys split into mutation references (keys of the
catalog) and crops (everything else). -/
def extractRequirements (conditions : List (String × CondVal)) :
    ExtractedRequirements :=
  conditions.foldl (fun acc p =>
    if p.1 = "special" then { acc with special := some p.2 }
    else if p.1 = "adjacent_crops" then { acc with adjacentCrops := some p.2 }
    else
      match p.2 with
      | CondVal.num n =>
        if (alookup MUTATIONS_DATA p.1).isSome then
          { acc with mutations := acc.mutations ++ [(p.1, n)] }
        else { acc with crops := acc.crops ++ [(p.1, n)] }
      | CondVal.str _ => acc) ⟨[], [], none, none⟩

/-- hasSpecialConditions of cropSolver. -/
def hasSpecialConditions (mutationId : String) : Bool :=
  match getMutationData mutationId with
  | none => false
  | some mutation => (alookup mutation.conditions "special").isSome

/-- getRequiredMutations of cropSolver. -/
def getRequiredMutations (mutationId : String) : List (String × Nat) :=
  match getMutationData mutationId with
  | none => []
  | some mutation => (extractRequirements mutation.conditions).mutations

/-- filterPlaceableMutations of the annealing engine: drop mutations with
special conditions and mutations whose required mutation kinds are not
all in the allowed pool. -/
def filterPlaceableMutations (availableMutations : List String) :
    List String :=
  availableMutations.filter (fun mutationId =>
    if hasSpecialConditions mutationId then false
    else
      (getRequiredMutations mutationId).all
        (fun p => decide (p.1 ∈ availableMutations)))

/-- Geometry record of the objective optimizer. -/
structure MutationGeometry where
  width : Nat
  height : Nat
  footprint : List (Int × Int)
  adjacencyRing : List (Int × Int)
deriving DecidableEq

/-- Placed mutation record of the objective optimizer state. -/
structure OptimizerPlacedMutation where
  id : String
  mutationId : String
  position : Pos
  geometry : MutationGeometry
  satisfyingCrops : List (String × List Pos)
  satisfyingMutations : List (String × List String)
deriving DecidableEq

/-- Placed crop record of the objective optimizer state. -/
structure OptimizerPlacedCrop where
  id : String
  crop : String
  position : Pos
  forMutations : List String
deriving DecidableEq

/-- OptimizerState of the objective engine. -/
structure OptimizerState where
  grid : List (List (Option String))
  placedMutations : List (String × OptimizerPlacedMutation)
  placedCrops : List (String × OptimizerPlacedCrop)
  score : ℚ
deriving DecidableEq

/-- createEmptyState of stateManager. -/
def createEmptyState (gridSize : Nat) : OptimizerState :=
  ⟨List.replicate gridSize (List.replicate gridSize none), [], [], 0⟩

/-- The two objective modes. -/
inductive ObjectiveType where
  | MAX_MUTATIONS
  | MAX_PROFIT
deriving DecidableEq

/-- OptimizerConfig of the objective engine. -/
structure OptimizerConfig where
  maxIterations : Nat
  startTemperature : ℚ
  coolingRate : ℚ
  objectiveType : ObjectiveType
deriving DecidableEq

/-- OptimizerResult of the objective engine; history entries are
iteration, score and temperature. -/
structure OptimizerResult where
  state : OptimizerState
  iterations : Nat
  finalScore : ℚ
  bestScore : ℚ
  history : List (Nat × ℚ × ℚ)
deriving DecidableEq

/-- optimizeLayout of the annealing engine.  The greedy seed and the
stochastic Metropolis loop that run when some mutation is placeable are
taken as one function parameter (they draw on the ambient Math.random and
a transcendental acceptance probability); the placeability filter and the
empty-pool early return are embedded from the source, so every theorem
below quantifies over all behaviours of the main loop. -/
def optimizeLayout
    (mainLoop : List String → OptimizerConfig → List Pos → OptimizerResult)
    (unlockedSlots : List Pos) (availableMutations : List String)
    (config : OptimizerConfig) : OptimizerResult :=
  let placeableMutations := filterPlaceableMutations availableMutations
  if placeableMutations.isEmpty then
    ⟨createEmptyState 10, 0, 0, 0, []⟩
  else mainLoop placeableMutations config unlockedSlots

end ObjectiveEngine

/-!
Reachability relations, specification-level predicates and concrete
example data used by the theorems below.
-/

/-- States reachable from an empty context by paired Placer operations
driven by the feasibility checker. -/
inductive PlacerReachable (u : List Pos) : PlacementContext → Prop where
  | init : PlacerReachable u (PlacementContext.new u)
  | exec {c : PlacementContext} {m : ParsedMutation} {x y : Int}
      {f : FeasiblePlacement} (i : String) :
      PlacerReachable u c →
      FeasibilityChecker.checkFeasibility c m x y = some f →
      PlacerReachable u (Placer.executePlacement c m f i).1
  | remove {c : PlacementContext} (i : String) :
      PlacerReachable u c →
      PlacerReachable u (Placer.removePlacement c i).1

/-- States reachable by the bulk-pattern strategy: Placer operations plus
the guarded crop pre-lay step of the BulkPlacer patterns. -/
inductive BulkReachable (u : List Pos) : PlacementContext → Prop where
  | init : BulkReachable u (PlacementContext.new u)
  | exec {c : PlacementContext} {m : ParsedMutation} {x y : Int}
      {f : FeasiblePlacement} (i : String) :
      BulkReachable u c →
      FeasibilityChecker.checkFeasibility c m x y = some f →
      BulkReachable u (Placer.executePlacement c m f i).1
  | remove {c : PlacementContext} (i : String) :
      BulkReachable u c →
      BulkReachable u (Placer.removePlacement c i).1
  | preLay {c : PlacementContext} (q : Pos) (t : String) :
      BulkReachable u c →
      c.grid.isFree q = true →
      BulkReachable u (BulkPlacer.preLayCrop c q t)

/-- Crop-liveness invariant exactly as the specification states it: every
crop record has a non-empty serving set and every member is the instance
id of a live placement. -/
def CropLivenessClaim (c : PlacementContext) : Prop :=
  ∀ p ∈ c.crops.crops, p.2.mutations ≠ [] ∧
    ∀ id ∈ p.2.mutations, (alookup c.mutations.mutations id).isSome

instance (c : PlacementContext) : Decidable (CropLivenessClaim c) := by
  unfold CropLivenessClaim; infer_instance

/-- Amended crop-liveness invariant: serving sets are non-empty and every
member is live or the pre-placement sentinel of the bulk patterns. -/
def CropLivenessAmended (c : PlacementContext) : Prop :=
  ∀ p ∈ c.crops.crops, p.2.mutations ≠ [] ∧
    ∀ id ∈ p.2.mutations,
      id = "__pre__" ∨ (alookup c.mutations.mutations id).isSome

instance (c : PlacementContext) : Decidable (CropLivenessAmended c) := by
  unfold CropLivenessAmended; infer_instance

/-- Isolation invariant of the amended fifth claim: every isolated live
placement has a crop-free adjacency ring whose unlocked cells are
reserved empty, reserved-empty cells carry no crop, and crop cells are in
bounds. -/
def IsolationInv (c : PlacementContext) : Prop :=
  (∀ p ∈ c.mutations.mutations, p.2.needsIsolation = true →
    ∀ r ∈ ringCells p.2.position.1 p.2.position.2 p.2.size.1 p.2.size.2,
      alookup c.crops.crops r = none ∧
      (r ∈ c.grid.unlockedSlots → r ∈ c.emptyZones)) ∧
  (∀ z ∈ c.emptyZones, alookup c.crops.crops z = none) ∧
  (∀ p ∈ c.crops.crops, inBounds p.1)

instance (c : PlacementContext) : Decidable (IsolationInv c) := by
  unfold IsolationInv; infer_instance

/-- The has-only-positive-effect predicate as the specification words it:
at least one positive tag and no negative tag. -/
def hasOnlyPositiveEffectSpec (m : ParsedMutation) : Bool :=
  m.effects.any (fun e => decide (e ∈ MutationParser.positiveEffectsList))
    && !(m.effects.any (fun e => decide (e ∈ MutationParser.negativeEffectsList)))

/-- A three-cell corner of unlocked board used by the bulk counterexample. -/
def smallUnlocked : List Pos := [((0 : Int), (0 : Int)), (1, 0), (0, 1)]

/-- The fully unlocked ten by ten board. -/
def fullUnlocked : List Pos :=
  (List.range 10).flatMap (fun y => (List.range 10).map (fun x => ((x : Int), (y : Int))))

/-- A condition-free one by one mutation kind. -/
def aMut : ParsedMutation := ⟨"a", "A", (1, 1), ⟨[], [], false⟩, []⟩

/-- A mutation kind requiring two distinct adjacent instances of kind a. -/
def bMut : ParsedMutation := ⟨"b", "B", (1, 1), ⟨[], [("a", 2)], false⟩, []⟩

/-- Two instances of the condition-free kind placed by the sequential
fallback placer: a_0 at the origin and a_1 beside it. -/
def ctxC3 : PlacementContext := (BulkPlacer.fallbackPlacement aMut 2 fullUnlocked).1

/-- A two-by-one mutation kind requiring one adjacent wheat crop. -/
def a2Mut : ParsedMutation := ⟨"a2", "A2", (2, 1), ⟨[("wheat", 1)], [], false⟩, []⟩

/-- The catalog isolation mutation, parsed. -/
def lonelilyParsed : ParsedMutation :=
  ⟨"lonelily", "Lonelily", (1, 1), ⟨[], [], true⟩, ["bonus_drops"]⟩

/-- The feasibility result of the two-by-one wheat mutation at the origin
of the fully unlocked board. -/
def c5f1 : FeasiblePlacement :=
  ⟨(0, 0), [(2, 0), (0, 1), (1, 1), (2, 1)], [], [], [("wheat", 1)]⟩

/-- State after placing the two-by-one wheat mutation at the origin. -/
def c5Mid : PlacementContext :=
  (Placer.executePlacement (PlacementContext.new fullUnlocked) a2Mut c5f1 "a2_0").1

/-- The feasibility result of the isolation mutation next to it. -/
def c5f2 : FeasiblePlacement := ⟨(0, 1), [], [], [], []⟩

/-- State after additionally placing the isolation mutation at (0, 1),
whose adjacency ring overlaps the first footprint. -/
def c5End : PlacementContext :=
  (Placer.executePlacement c5Mid lonelilyParsed c5f2 "lonelily_0").1

/-- The catalog chorus fruit mutation, parsed: its dependency set names
the underscore-containing kind magic_jellybean. -/
def chorusFruitParsed : ParsedMutation :=
  ⟨"chorus_fruit", "Chorus Fruit", (1, 1),
   ⟨[], [("chloronite", 5), ("magic_jellybean", 3)], false⟩,
   ["improved_xp_boost", "harvest_loss"]⟩

/-- Trivial annealing stand-in used to instantiate the orchestrator. -/
def trivialSA : PlacementContext → Nat → StrategyProfile → PlacementContext :=
  fun c _ _ => c

/-- Trivial greedy stand-in used to instantiate the orchestrator. -/
def trivialGreedy :
    List (String × Nat) → List Pos → StrategyProfile → PlacementContext :=
  fun _ _ _ => PlacementContext.new []

/-- Trivial genetic stand-in used to instantiate the orchestrator. -/
def trivialGA :
    List (String × Nat) → List Pos → StrategyProfile → Nat → PlacementContext :=
  fun _ _ _ _ => PlacementContext.new []

/-- Trivial fitness stand-in used to instantiate the orchestrator. -/
def trivialRecalc : PlacementContext → Nat → FitnessState :=
  fun _ _ => ⟨0, 0, 0, 0, 0, 0, 0⟩

/-- Trivial breakdown stand-in used to instantiate the orchestrator. -/
def trivialBreakdown : FitnessState → ScoreBreakdown :=
  fun _ => ⟨0, 0, 0, 0, 0, 0, 0, 0, 0⟩

/-- Trivial main-loop stand-in used to instantiate the objective engine;
its conspicuous iteration count shows when it runs. -/
def trivialMainLoop :
    List String → ObjectiveEngine.OptimizerConfig → List Pos →
      ObjectiveEngine.OptimizerResult :=
  fun _ _ _ => ⟨ObjectiveEngine.createEmptyState 10, 99, 99, 99, []⟩

/-- Invariant of the ring scan over the satisfied-dependency map: every
entry holds at most one cell, its key is marked checked, and its key --
produced by getMutationIdAt -- contains no underscore. -/
def ScanMutInv (st : ScanState) : Prop :=
  ∀ e ∈ st.satisfiedMutations,
    e.2.length ≤ 1 ∧ e.1 ∈ st.checkedMutations ∧ '_' ∉ e.1.data

/-- The bulk-pattern run of the crop-liveness counterexample. -/
def c2Result : Option (PlacementContext × List MutationPlacement) :=
  BulkPlacer.placeBulk [] "gloomgourd" 1 smallUnlocked

/-- Its final state. -/
def c2State : PlacementContext :=
  (c2Result.getD (PlacementContext.new [], [])).1

/-- The catalog gloomgourd mutation, parsed. -/
def gloomgourdParsed : ParsedMutation :=
  ⟨"gloomgourd", "Gloomgourd", (1, 1),
   ⟨[("pumpkin", 1), ("melon", 1)], [], false⟩,
   ["water_retain", "bonus_drops"]⟩

/-- A four-cell unlocked corner for the round-trip witness. -/
def c4Unlocked : List Pos := [((0 : Int), (0 : Int)), (1, 0), (0, 1), (1, 1)]

/-- The empty state over that corner. -/
def c4Base : PlacementContext := PlacementContext.new c4Unlocked

/-- The feasibility result of gloomgourd at the origin of that corner. -/
def c4f0 : FeasiblePlacement :=
  ⟨(0, 0), [(1, 0), (0, 1), (1, 1)], [], [],
   [("pumpkin", 1), ("melon", 1)]⟩

/-- A live placement of the underscore-named magic jellybean kind. -/
def mjPlacement : MutationPlacement :=
  ⟨"magic_jellybean", "magic_jellybean_0", (0, 0), (1, 1), [], false⟩

/-- A registry holding only that placement. -/
def c10Registry : MutationRegistry :=
  ⟨[("magic_jellybean_0", mjPlacement)], [((0, 0), "magic_jellybean_0")]⟩

/-- All crop records have a non-empty serving set whose members satisfy the
given owner predicate. -/
def CropsMembersOk (crops : List (Pos × CropInfo)) (P : String → Prop) : Prop :=
  ∀ p ∈ crops, p.2.mutations ≠ [] ∧ ∀ id ∈ p.2.mutations, P id

/-- Relation between an original crop record and its state after
registration: same cell, same type, serving set unchanged or extended by
the given instance id. -/
def servRel (i : String) (p q : Pos × CropInfo) : Prop :=
  q.1 = p.1 ∧ q.2.type = p.2.type ∧
    (q.2.mutations = p.2.mutations ∨ q.2.mutations = setAdd p.2.mutations i)

/-!
Theorems.  General lemmas about the association-list and set operations
come first, then the per-claim results.
-/

theorem alookup_mem {κ β : Type} [DecidableEq κ] {m : List (κ × β)} {k : κ}
    {v : β} (h : alookup m k = some v) : (k, v) ∈ m := by
  induction m with
  | nil => simp [alookup] at h
  | cons p t ih =>
    rw [alookup] at h
    by_cases hk : p.1 = k
    · rw [if_pos hk] at h
      cases h
      rw [← hk]
      exact List.mem_cons_self p t
    · rw [if_neg hk] at h
      exact List.mem_cons_of_mem _ (ih h)

theorem alookup_eq_none_of_forall {κ β : Type} [DecidableEq κ]
    {m : List (κ × β)} {k : κ} (h : ∀ p ∈ m, p.1 ≠ k) : alookup m k = none := by
  induction m with
  | nil => rfl
  | cons p t ih =>
    rw [alookup, if_neg (h p (List.mem_cons_self p t))]
    exact ih (fun q hq => h q (List.mem_cons_of_mem _ hq))

theorem alookup_append_of_none {κ β : Type} [DecidableEq κ]
    {m1 : List (κ × β)} (m2 : List (κ × β)) {k : κ}
    (h : alookup m1 k = none) : alookup (m1 ++ m2) k = alookup m2 k := by
  induction m1 with
  | nil => rfl
  | cons p t ih =>
    rw [alookup] at h
    by_cases hk : p.1 = k
    · rw [if_pos hk] at h; cases h
    · rw [if_neg hk] at h
      rw [List.cons_append, alookup, if_neg hk]
      exact ih h

theorem alookup_append_of_some {κ β : Type} [DecidableEq κ]
    {m1 : List (κ × β)} (m2 : List (κ × β)) {k : κ} {v : β}
    (h : alookup m1 k = some v) : alookup (m1 ++ m2) k = some v := by
  induction m1 with
  | nil => cases h
  | cons p t ih =>
    rw [alookup] at h
    rw [List.cons_append, alookup]
    by_cases hk : p.1 = k
    · rw [if_pos hk] at h ⊢; exact h
    · rw [if_neg hk] at h ⊢; exact ih h

theorem mem_setAdd {α : Type} [DecidableEq α] {s : List α} {a b : α} :
    b ∈ setAdd s a ↔ b ∈ s ∨ b = a := by
  unfold setAdd
  by_cases h : a ∈ s
  · rw [if_pos h]
    constructor
    · exact Or.inl
    · rintro (hb | rfl)
      · exact hb
      · exact h
  · rw [if_neg h]
    simp

theorem setAdd_ne_nil {α : Type} [DecidableEq α] {s : List α} {a : α}
    (h : s ≠ []) : setAdd s a ≠ [] := by
  unfold setAdd
  by_cases hm : a ∈ s
  · rw [if_pos hm]; exact h
  · rw [if_neg hm]
    intro hc
    exact absurd (List.append_eq_nil.mp hc).2 (by simp)

theorem mem_mapSet {κ β : Type} [DecidableEq κ] {m : List (κ × β)} {k : κ}
    {v : β} {p : κ × β} (h : p ∈ mapSet m k v) : p = (k, v) ∨ p ∈ m := by
  unfold mapSet at h
  by_cases hs : (alookup m k).isSome
  · rw [if_pos hs] at h
    obtain ⟨q, hq, hpq⟩ := List.mem_map.mp h
    by_cases hqk : q.1 = k
    · rw [if_pos hqk] at hpq
      exact Or.inl hpq.symm
    · rw [if_neg hqk] at hpq
      exact Or.inr (hpq ▸ hq)
  · rw [if_neg hs] at h
    rcases List.mem_append.mp h with hm | hm
    · exact Or.inr hm
    · exact Or.inl (List.mem_singleton.mp hm)

theorem alookup_map_inplace_self {κ β : Type} [DecidableEq κ]
    {m : List (κ × β)} {k : κ} (v : β) (hs : (alookup m k).isSome = true) :
    alookup (m.map (fun p => if p.1 = k then (k, v) else p)) k = some v := by
  induction m with
  | nil => simp [alookup] at hs
  | cons p t ih =>
    rw [alookup] at hs
    rw [List.map_cons]
    by_cases hk : p.1 = k
    · rw [if_pos hk, alookup, if_pos rfl]
    · rw [if_neg hk] at hs ⊢
      rw [alookup, if_neg hk]
      exact ih hs

theorem alookup_map_inplace_ne {κ β : Type} [DecidableEq κ]
    (m : List (κ × β)) (k k0 : κ) (v : β) (h : k0 ≠ k) :
    alookup (m.map (fun p => if p.1 = k then (k, v) else p)) k0
      = alookup m k0 := by
  induction m with
  | nil => rfl
  | cons p t ih =>
    rw [List.map_cons]
    by_cases hk : p.1 = k
    · rw [if_pos hk, alookup, alookup,
        if_neg (show ¬ (k, v).1 = k0 from fun hc => h hc.symm),
        if_neg (show ¬ p.1 = k0 from hk ▸ fun hc => h hc.symm)]
      exact ih
    · rw [if_neg hk, alookup, alookup]
      by_cases hp0 : p.1 = k0
      · rw [if_pos hp0, if_pos hp0]
      · rw [if_neg hp0, if_neg hp0]
        exact ih

theorem alookup_mapSet_self {κ β : Type} [DecidableEq κ] (m : List (κ × β))
    (k : κ) (v : β) : alookup (mapSet m k v) k = some v := by
  unfold mapSet
  by_cases hs : (alookup m k).isSome
  · rw [if_pos hs]
    exact alookup_map_inplace_self v hs
  · rw [if_neg hs]
    have hnone : alookup m k = none := by
      cases hl : alookup m k
      · rfl
      · rw [hl] at hs; simp at hs
    rw [alookup_append_of_none _ hnone, alookup, if_pos rfl]

theorem alookup_mapSet_ne {κ β : Type} [DecidableEq κ] (m : List (κ × β))
    (k k0 : κ) (v : β) (h : k0 ≠ k) :
    alookup (mapSet m k v) k0 = alookup m k0 := by
  unfold mapSet
  by_cases hs : (alookup m k).isSome
  · rw [if_pos hs]
    exact alookup_map_inplace_ne m k k0 v h
  · rw [if_neg hs]
    induction m with
    | nil => simp [alookup, Ne.symm h]
    | cons p t ih =>
      rw [alookup] at hs
      rw [List.cons_append, alookup, alookup]
      by_cases hk : p.1 = k
      · rw [if_pos hk] at hs
        simp at hs
      · rw [if_neg hk] at hs
        by_cases hp0 : p.1 = k0
        · rw [if_pos hp0, if_pos hp0]
        · rw [if_neg hp0, if_neg hp0]
          exact ih hs

theorem alookup_mapDelete_ne {κ β : Type} [DecidableEq κ] (m : List (κ × β))
    (k k0 : κ) (h : k0 ≠ k) : alookup (mapDelete m k) k0 = alookup m k0 := by
  induction m with
  | nil => rfl
  | cons p t ih =>
    rw [mapDelete, List.filter_cons]
    by_cases hk : p.1 = k
    · rw [show decide (p.1 ≠ k) = false by simp [hk]]
      rw [show alookup (p :: t) k0 = alookup t k0 by
        rw [alookup, if_neg (show ¬ p.1 = k0 from hk ▸ fun hc => h hc.symm)]]
      exact ih
    · rw [show decide (p.1 ≠ k) = true by simp [hk]]
      rw [if_pos rfl]
      rw [alookup, alookup]
      by_cases hp0 : p.1 = k0
      · rw [if_pos hp0, if_pos hp0]
      · rw [if_neg hp0, if_neg hp0]
        exact ih

theorem foldl_preserves {β α γ : Type} (proj : β → γ) (g : β → α → β)
    (h : ∀ b a, proj (g b a) = proj b) :
    ∀ (l : List α) (b : β), proj (l.foldl g b) = proj b := by
  intro l
  induction l with
  | nil => intro b; rfl
  | cons a t ih => intro b; rw [List.foldl_cons, ih, h]

theorem foldl_invariant {β α : Type} (P : β → Prop) (g : β → α → β)
    (h : ∀ b a, P b → P (g b a)) :
    ∀ (l : List α) (b : β), P b → P (l.foldl g b) := by
  intro l
  induction l with
  | nil => intro b hb; exact hb
  | cons a t ih => intro b hb; exact ih _ (h b a hb)

theorem pos_effect_not_negative :
    ∀ e ∈ MutationParser.positiveEffectsList,
      e ∉ MutationParser.negativeEffectsList := by decide

/-- C6.  The predicate used by the scorer and the fitness calculator is
not has-only-positive-effect: because the positive and negative
vocabularies are disjoint and the check runs per effect tag, it returns
true exactly when some positive tag is present, regardless of negative
tags; in particular it returns true for ashwreath, which carries
improved_harvest_boost together with xp_loss. -/
theorem hasPositiveEffect_iff_some_positive_tag :
    (∀ m : ParsedMutation,
      MutationParser.hasPositiveEffect m = true ↔
        ∃ e ∈ m.effects, e ∈ MutationParser.positiveEffectsList) ∧
    (MutationParser.parse [] "ashwreath").map MutationParser.hasPositiveEffect
      = some true := by
  constructor
  · intro m
    unfold MutationParser.hasPositiveEffect
    rw [List.any_eq_true]
    constructor
    · rintro ⟨e, he, hb⟩
      rw [Bool.and_eq_true, decide_eq_true_iff] at hb
      exact ⟨e, he, hb.1⟩
    · rintro ⟨e, he, hp⟩
      refine ⟨e, he, ?_⟩
      rw [Bool.and_eq_true, decide_eq_true_iff]
      refine ⟨hp, ?_⟩
      rw [Bool.not_eq_true', decide_eq_false_iff_not]
      exact pos_effect_not_negative e hp
  · decide

/-- Counterexample to C6 as stated: on ashwreath, whose effect list is
improved_harvest_boost with xp_loss, the code predicate answers true
while the has-only-positive-effect reading of the specification demands
false. -/
theorem hasPositiveEffect_ashwreath_counterexample :
    (MutationParser.parse [] "ashwreath").map MutationParser.hasPositiveEffect
        = some true ∧
      (MutationParser.parse [] "ashwreath").map hasOnlyPositiveEffectSpec
        = some false := by decide

/-- Counterexample to C8 as stated: not every strategy profile has
synergy weight one half; the ultra-compact profile has three tenths. -/
theorem strategies_synergy_not_all_half :
    ¬ ∀ s ∈ STRATEGIES, s.synergyWeight = 1/2 := by
  intro h
  have hu := h ⟨"ultra-compact", 1/2, 3, 3/10, 1/2, 0⟩
    (by simp [STRATEGIES])
  norm_num at hu

/-- C8 amended.  Exactly five strategy profiles with the claimed sharing,
compactness and corner weights; every synergy weight is one half except
ultra-compact, whose synergy weight is three tenths. -/
theorem strategies_characterization :
    STRATEGIES.length = 5 ∧
    STRATEGIES.map (fun s => (s.name, s.sharingWeight, s.compactnessWeight,
        s.synergyWeight, s.cornerWeight, s.randomness)) =
      [("compact-balanced", 1, 2, 1/2, 1, 0),
       ("ultra-compact", 1/2, 3, 3/10, 1/2, 0),
       ("compact-sharing", 3/2, 2, 1/2, 1/2, 0),
       ("tight-cluster", 4/5, 5/2, 1/2, 1, 0),
       ("exploration", 1, 3/2, 1/2, 1, 1/5)] ∧
    ∀ s ∈ STRATEGIES,
      s.synergyWeight = 1/2 ∨
        (s.name = "ultra-compact" ∧ s.synergyWeight = 3/10) := by
  refine ⟨rfl, rfl, ?_⟩
  intro s hs
  simp only [STRATEGIES, List.mem_cons, List.not_mem_nil, or_false] at hs
  rcases hs with rfl | rfl | rfl | rfl | rfl
  · exact Or.inl rfl
  · exact Or.inr ⟨rfl, rfl⟩
  · exact Or.inl rfl
  · exact Or.inl rfl
  · exact Or.inl rfl

/-- C9.  The relocation shuffle of the annealing loop draws from the
ambient unseeded Math.random stream, modelled here as an explicit
stream: two different streams already drive the three-element shuffle to
different permutations, so identical inputs alone do not determine the
result and no seed knob exists to pin the stream down. -/
theorem shuffleArray_depends_on_stream :
    SimulatedAnnealing.shuffleArray (fun _ => 0) [0, 1, 2] = ([1, 2, 0] : List Nat) ∧
    SimulatedAnnealing.shuffleArray (fun _ => 1/2) [0, 1, 2] = ([0, 2, 1] : List Nat) ∧
    SimulatedAnnealing.shuffleArray (fun _ => 0) [0, 1, 2]
      ≠ SimulatedAnnealing.shuffleArray (fun _ => 1/2) ([0, 1, 2] : List Nat) := by
  have h1 : SimulatedAnnealing.shuffleArray (fun _ => 0) [0, 1, 2]
      = ([1, 2, 0] : List Nat) := by
    simp only [SimulatedAnnealing.shuffleArray, SimulatedAnnealing.shuffleGo,
      SimulatedAnnealing.listSwap]
    norm_num
  have h2 : SimulatedAnnealing.shuffleArray (fun _ => 1/2) [0, 1, 2]
      = ([0, 2, 1] : List Nat) := by
    simp only [SimulatedAnnealing.shuffleArray, SimulatedAnnealing.shuffleGo,
      SimulatedAnnealing.listSwap]
    norm_num
  refine ⟨h1, h2, ?_⟩
  intro h
  rw [h1, h2] at h
  simp at h

/-- C7.  When filtering the allowed pool for special conditions and
unavailable dependency kinds leaves nothing placeable, optimizeLayout
returns the empty state with zero iterations, zero scores and an empty
history, whatever the annealing main loop would do. -/
theorem optimizeLayout_empty_pool
    (mainLoop : List String → ObjectiveEngine.OptimizerConfig → List Pos →
      ObjectiveEngine.OptimizerResult)
    (unlockedSlots : List Pos) (availableMutations : List String)
    (config : ObjectiveEngine.OptimizerConfig)
    (h : ObjectiveEngine.filterPlaceableMutations availableMutations = []) :
    ObjectiveEngine.optimizeLayout mainLoop unlockedSlots availableMutations
        config =
      ⟨ObjectiveEngine.createEmptyState 10, 0, 0, 0, []⟩ := by
  unfold ObjectiveEngine.optimizeLayout
  rw [h]
  rfl

theorem match_error_toOption (o : Option PlacementContext) (e1 e2 : String) :
    (match o with
     | none => (Except.error e1 : Except String MultiStrategyResult)
     | some _ => Except.error e2).toOption = none := by
  cases o <;> rfl

/-- C1.  Whenever a dominant mutation exists, MultiStrategyOptimizer
optimize enters the bulk branch, runs the bulk placer and the annealing
refinement, and then dereferences the still-null best record, so the call
never returns a result -- whatever the annealing, greedy, genetic and
fitness components do. -/
theorem optimize_dies_on_dominant_workload
    (saOptimize : PlacementContext → Nat → StrategyProfile → PlacementContext)
    (greedySolve : List (String × Nat) → List Pos → StrategyProfile →
      PlacementContext)
    (gaOptimize : List (String × Nat) → List Pos → StrategyProfile → Nat →
      PlacementContext)
    (recalculate : PlacementContext → Nat → FitnessState)
    (toBreakdown : FitnessState → ScoreBreakdown)
    (unlockedMutations : List String) (targets : List (String × Nat))
    (unlocked : List Pos)
    (h : MultiStrategyOptimizer.findDominantMutation targets
        ((targets.map (fun t => t.2)).foldl (· + ·) 0) ≠ none) :
    (MultiStrategyOptimizer.optimize saOptimize greedySolve gaOptimize
        recalculate toBreakdown unlockedMutations targets unlocked).toOption
      = none := by
  unfold MultiStrategyOptimizer.optimize
  cases hdom : MultiStrategyOptimizer.findDominantMutation targets
      ((targets.map (fun t => t.2)).foldl (· + ·) 0) with
  | none => exact absurd hdom h
  | some dominant =>
    simp only [hdom]
    cases hb : BulkPlacer.placeBulk unlockedMutations dominant.1 dominant.2
        unlocked with
    | none => simp [hb, Except.toOption]
    | some bulkResult =>
      simp only [hb]
      exact match_error_toOption _ _ _

/-- Witness for C1: a single-target workload is dominant, and the
orchestrator instantiated with trivial sub-strategies crashes on it. -/
theorem optimize_dies_on_dominant_workload_witness :
    MultiStrategyOptimizer.findDominantMutation [("gloomgourd", 1)]
        (([("gloomgourd", 1)].map (fun t : String × Nat => t.2)).foldl (· + ·) 0)
      = some ("gloomgourd", 1) ∧
    (MultiStrategyOptimizer.optimize trivialSA trivialGreedy trivialGA
        trivialRecalc trivialBreakdown [] [("gloomgourd", 1)] []).toOption
      = none := by
  have hd : MultiStrategyOptimizer.findDominantMutation [("gloomgourd", 1)]
      (([("gloomgourd", 1)].map (fun t : String × Nat => t.2)).foldl (· + ·) 0)
      = some ("gloomgourd", 1) := by
    unfold MultiStrategyOptimizer.findDominantMutation
    rw [List.find?_cons_of_pos]
    simp only [decide_eq_true_iff]
    norm_num
  refine ⟨hd, optimize_dies_on_dominant_workload trivialSA trivialGreedy
    trivialGA trivialRecalc trivialBreakdown [] [("gloomgourd", 1)] [] ?_⟩
  rw [hd]
  simp

/-- Counterexample to C2 as stated: the bulk-pattern strategy returns a
state whose crop serving sets contain the pre-placement sentinel, which
is not the instance id of any live placement. -/
theorem bulk_pattern_serving_member_not_live :
    c2Result.isSome = true ∧
    ¬ CropLivenessClaim c2State ∧
    alookup c2State.crops.crops (0, 0)
      = some ⟨"pumpkin", ["__pre__", "gloomgourd_0"]⟩ ∧
    alookup c2State.mutations.mutations "__pre__" = none := by decide

/-- Counterexample to C3 as stated: two distinct live instances of kind a
touch the ring of the anchor, the candidate requires two of that kind,
yet checkFeasibility rejects, because its checked-kinds set filters out
the second instance of an already-counted kind. -/
theorem two_distinct_dep_instances_still_rejected :
    alookup ctxC3.mutations.cellToMutation (0, 0) = some "a_0" ∧
    alookup ctxC3.mutations.cellToMutation (1, 0) = some "a_1" ∧
    ctxC3.mutations.getMutationIdAt (0, 0) = some "a" ∧
    ctxC3.mutations.getMutationIdAt (1, 0) = some "a" ∧
    ((0, 0) : Pos) ∈ ringCells 1 1 1 1 ∧
    ((1, 0) : Pos) ∈ ringCells 1 1 1 1 ∧
    bMut.conditions.mutations = [("a", 2)] ∧
    bMut.conditions.requiresIsolation = false ∧
    FeasibilityChecker.checkFeasibility ctxC3 bMut 1 1 = none := by decide

/-- Counterexample to C5 as stated: a state reached by feasibility-driven
Placer operations in which the isolated lonelily placement has the
footprint cell of another live placement inside its adjacency ring. -/
theorem isolated_ring_contains_foreign_footprint :
    MutationParser.parse [] "lonelily" = some lonelilyParsed ∧
    FeasibilityChecker.checkFeasibility (PlacementContext.new fullUnlocked)
      a2Mut 0 0 = some c5f1 ∧
    FeasibilityChecker.checkFeasibility c5Mid lonelilyParsed 0 1 = some c5f2 ∧
    PlacerReachable fullUnlocked c5End ∧
    alookup c5End.mutations.mutations "lonelily_0"
      = some ⟨"lonelily", "lonelily_0", (0, 1), (1, 1), [], true⟩ ∧
    ((0, 0) : Pos) ∈ ringCells 0 1 1 1 ∧
    alookup c5End.mutations.cellToMutation (0, 0) = some "a2_0" ∧
    alookup c5End.mutations.mutations "a2_0"
      = some ⟨"a2", "a2_0", (0, 0), (2, 1), [((2, 0), "wheat")], false⟩ := by
  have h1 : FeasibilityChecker.checkFeasibility (PlacementContext.new fullUnlocked)
      a2Mut 0 0 = some c5f1 := by decide
  have h2 : FeasibilityChecker.checkFeasibility c5Mid lonelilyParsed 0 1
      = some c5f2 := by decide
  refine ⟨by decide, h1, h2, ?_, by decide, by decide, by decide, by decide⟩
  exact PlacerReachable.exec "lonelily_0"
    (PlacerReachable.exec "a2_0" PlacerReachable.init h1) h2

theorem headBeforeUnderscore_no_underscore (s : String) :
    '_' ∉ (headBeforeUnderscore s).data := by
  intro hmem
  have hm2 : '_' ∈ s.toList.takeWhile (fun c => decide (c ≠ '_')) := hmem
  have hp := List.mem_takeWhile_imp hm2
  simp at hp

theorem getMutationIdAt_no_underscore {r : MutationRegistry} {q : Pos}
    {s : String} (h : r.getMutationIdAt q = some s) : '_' ∉ s.data := by
  unfold MutationRegistry.getMutationIdAt at h
  cases hl : alookup r.cellToMutation q with
  | none => rw [hl] at h; cases h
  | some inst =>
    rw [hl] at h
    dsimp only at h
    by_cases he : inst = ""
    · rw [if_pos he] at h; cases h
    · rw [if_neg he] at h
      cases h
      exact headBeforeUnderscore_no_underscore inst

theorem scanFree_satisfiedMutations (c : PlacementContext) (st : ScanState)
    (q : Pos) :
    (FeasibilityChecker.scanFree c st q).satisfiedMutations
      = st.satisfiedMutations := by
  unfold FeasibilityChecker.scanFree
  split <;> rfl

theorem scanFree_checkedMutations (c : PlacementContext) (st : ScanState)
    (q : Pos) :
    (FeasibilityChecker.scanFree c st q).checkedMutations
      = st.checkedMutations := by
  unfold FeasibilityChecker.scanFree
  split <;> rfl

theorem scanMutInv_scanFree (c : PlacementContext) (st : ScanState) (q : Pos)
    (h : ScanMutInv st) : ScanMutInv (FeasibilityChecker.scanFree c st q) := by
  intro e he
  rw [scanFree_satisfiedMutations] at he
  rw [scanFree_checkedMutations]
  exact h e he

theorem scanMutInv_step (c : PlacementContext) (m : ParsedMutation)
    (st : ScanState) (q : Pos) (h : ScanMutInv st) :
    ScanMutInv (FeasibilityChecker.scanCell c m st q) := by
  unfold FeasibilityChecker.scanCell
  by_cases hin : inBounds q
  · rw [if_pos hin]
    have hscan : ScanMutInv (FeasibilityChecker.scanMut c m st q) := by
      unfold FeasibilityChecker.scanMut
      cases hid : c.mutations.getMutationIdAt q with
      | none => exact scanMutInv_scanFree c st q h
      | some mutId =>
        dsimp only
        by_cases hcond : (alookup m.conditions.mutations mutId).isSome
            ∧ mutId ∉ st.checkedMutations
        · rw [if_pos hcond]
          intro e he
          simp only at he
          cases hl : alookup st.satisfiedMutations mutId with
          | some l =>
            exact absurd ((h _ (alookup_mem hl)).2.1) hcond.2
          | none =>
            unfold pushEntry at he
            rw [hl] at he
            rcases List.mem_append.mp he with hold | hnew
            · obtain ⟨h1, h2, h3⟩ := h e hold
              exact ⟨h1, List.mem_append_left _ h2, h3⟩
            · cases List.mem_singleton.mp hnew
              refine ⟨by simp, List.mem_append_right _ (by simp), ?_⟩
              exact getMutationIdAt_no_underscore hid
        · rw [if_neg hcond]
          exact scanMutInv_scanFree c st q h
    cases hcrop : c.crops.getCrop q with
    | none => exact hscan
    | some crop =>
      dsimp only
      by_cases hreq : (alookup m.conditions.crops crop.type).isSome
      · rw [if_pos hreq]
        intro e he
        exact h e he
      · rw [if_neg hreq]
        exact hscan
  · rw [if_neg hin]
    exact h

theorem scanMutInv_fold (c : PlacementContext) (m : ParsedMutation)
    (L : List Pos) :
    ScanMutInv (L.foldl (FeasibilityChecker.scanCell c m) ⟨[], [], [], []⟩) := by
  refine foldl_invariant ScanMutInv _ (fun st q hst => scanMutInv_step c m st q hst)
    L _ ?_
  intro e he
  cases he

theorem checkFeasibility_rejects_dep (c : PlacementContext)
    (m : ParsedMutation) (x y : Int) (d : String) (n : Nat)
    (hiso : m.conditions.requiresIsolation = false)
    (hmem : (d, n) ∈ m.conditions.mutations)
    (hlt : ((alookup ((ringCells x y m.size.1 m.size.2).foldl
        (FeasibilityChecker.scanCell c m) ⟨[], [], [], []⟩).satisfiedMutations
          d).getD []).length < n) :
    FeasibilityChecker.checkFeasibility c m x y = none := by
  unfold FeasibilityChecker.checkFeasibility
  by_cases hfit : c.grid.canFitRect x y m.size.1 m.size.2 = true
  · rw [if_pos hfit]
    by_cases hz : (rectCells x y m.size.1 m.size.2).any
        (fun q => decide (q ∈ c.emptyZones)) = true
    · rw [if_pos hz]
    · rw [if_neg hz]
      rw [hiso]
      rw [if_neg (by simp)]
      have hany : m.conditions.mutations.any (fun p =>
          decide (((alookup ((ringCells x y m.size.1 m.size.2).foldl
            (FeasibilityChecker.scanCell c m)
              ⟨[], [], [], []⟩).satisfiedMutations p.1).getD []).length < p.2))
          = true :=
        List.any_eq_true.mpr ⟨(d, n), hmem, by
          rw [decide_eq_true_iff]; exact hlt⟩
      simp [hany]
  · rw [if_neg hfit]

/-- C3 amended.  The feasibility checker records at most one entry per
required dependency kind -- the first adjacent cell of that kind -- so
together with the checked-kinds filter a requirement of two or more
distinct adjacent instances is rejected at every state and anchor. -/
theorem checkFeasibility_at_most_one_dep_entry :
    (∀ (c : PlacementContext) (m : ParsedMutation) (x y : Int)
        (e : String × List Pos),
      e ∈ ((ringCells x y m.size.1 m.size.2).foldl
        (FeasibilityChecker.scanCell c m) ⟨[], [], [], []⟩).satisfiedMutations →
      e.2.length ≤ 1) ∧
    (∀ (c : PlacementContext) (m : ParsedMutation) (x y : Int) (d : String)
        (n : Nat),
      m.conditions.requiresIsolation = false →
      (d, n) ∈ m.conditions.mutations → 2 ≤ n →
      FeasibilityChecker.checkFeasibility c m x y = none) := by
  constructor
  · intro c m x y e he
    exact (scanMutInv_fold c m (ringCells x y m.size.1 m.size.2) e he).1
  · intro c m x y d n hiso hmem hn
    refine checkFeasibility_rejects_dep c m x y d n hiso hmem ?_
    cases hl : alookup ((ringCells x y m.size.1 m.size.2).foldl
        (FeasibilityChecker.scanCell c m) ⟨[], [], [], []⟩).satisfiedMutations d
        with
    | none => simpa using Nat.lt_of_lt_of_le (by norm_num) hn
    | some l =>
      have hle := (scanMutInv_fold c m (ringCells x y m.size.1 m.size.2) _
        (alookup_mem hl)).1
      simp only [Option.getD_some]
      exact Nat.lt_of_le_of_lt hle (Nat.lt_of_lt_of_le (by norm_num) hn)

/-- Witness for the amended C3: in the concrete two-instance state the
scan holds a single one-cell entry for kind a, and the kind-b candidate
demanding two instances of a is rejected at anchor (1, 1). -/
theorem checkFeasibility_at_most_one_dep_entry_witness :
    ("a", [((0, 0) : Pos)]) ∈ ((ringCells 1 1 1 1).foldl
      (FeasibilityChecker.scanCell ctxC3 bMut) ⟨[], [], [], []⟩).satisfiedMutations
      ∧
    (("a", [((0, 0) : Pos)]) : String × List Pos).2.length ≤ 1 ∧
    bMut.conditions.requiresIsolation = false ∧
    ("a", 2) ∈ bMut.conditions.mutations ∧ 2 ≤ 2 ∧
    FeasibilityChecker.checkFeasibility ctxC3 bMut 1 1 = none :=
  ⟨by decide,
   checkFeasibility_at_most_one_dep_entry.1 ctxC3 bMut 1 1 ("a", [(0, 0)])
     (by decide),
   by decide, by decide, by decide,
   checkFeasibility_at_most_one_dep_entry.2 ctxC3 bMut 1 1 "a" 2 (by decide)
     (by decide) (by decide)⟩

/-- C10.  getMutationIdAt answers the part of the covering instance id
before its first underscore, which never contains an underscore and so
never equals an underscore-containing mutation id; consequently any
non-isolated mutation with a positive dependency requirement on an
underscore-containing kind is infeasible at every state and anchor. -/
theorem underscore_kinds_never_credited :
    (∀ (r : MutationRegistry) (q : Pos) (inst : String),
      alookup r.cellToMutation q = some inst → inst ≠ "" →
      r.getMutationIdAt q = some (headBeforeUnderscore inst)) ∧
    (∀ inst mId : String, '_' ∈ mId.data → headBeforeUnderscore inst ≠ mId) ∧
    (∀ (c : PlacementContext) (m : ParsedMutation) (x y : Int) (d : String)
        (n : Nat),
      m.conditions.requiresIsolation = false →
      (d, n) ∈ m.conditions.mutations → 1 ≤ n → '_' ∈ d.data →
      FeasibilityChecker.checkFeasibility c m x y = none) := by
  refine ⟨?_, ?_, ?_⟩
  · intro r q inst h hne
    unfold MutationRegistry.getMutationIdAt
    rw [h]
    dsimp only
    rw [if_neg hne]
  · intro inst mId hu heq
    exact headBeforeUnderscore_no_underscore inst (heq ▸ hu)
  · intro c m x y d n hiso hmem hn hu
    refine checkFeasibility_rejects_dep c m x y d n hiso hmem ?_
    have hnone : alookup ((ringCells x y m.size.1 m.size.2).foldl
        (FeasibilityChecker.scanCell c m) ⟨[], [], [], []⟩).satisfiedMutations d
        = none := by
      refine alookup_eq_none_of_forall ?_
      intro p hp heq
      exact (scanMutInv_fold c m (ringCells x y m.size.1 m.size.2) p hp).2.2
        (heq ▸ hu)
    rw [hnone]
    simpa using hn

/-- Witness for C10: the prefix of magic_jellybean_0 is magic, differing
from the kind magic_jellybean, and the chorus fruit mutation -- whose
dependency set names magic_jellybean -- is infeasible on the empty full
board at the origin. -/
theorem underscore_kinds_never_credited_witness :
    c10Registry.getMutationIdAt (0, 0) = some "magic" ∧
    headBeforeUnderscore "magic_jellybean_0" ≠ "magic_jellybean" ∧
    MutationParser.parse [] "chorus_fruit" = some chorusFruitParsed ∧
    FeasibilityChecker.checkFeasibility (PlacementContext.new fullUnlocked)
      chorusFruitParsed 0 0 = none := by
  refine ⟨?_, ?_, by decide, ?_⟩
  · have h := underscore_kinds_never_credited.1 c10Registry (0, 0)
      "magic_jellybean_0" (by decide) (by decide)
    rw [h]
    decide
  · exact underscore_kinds_never_credited.2.1 "magic_jellybean_0"
      "magic_jellybean" (by decide)
  · exact underscore_kinds_never_credited.2.2 (PlacementContext.new fullUnlocked)
      chorusFruitParsed 0 0 "magic_jellybean" 3 (by decide) (by decide)
      (by decide) (by decide)

/-- Witness for C7: a pool of shellfruit (special conditions) and chorus
fruit (dependencies outside the pool) filters to nothing, and the run
returns the zeroed result rather than entering the loop. -/
theorem optimizeLayout_empty_pool_witness :
    ObjectiveEngine.filterPlaceableMutations ["shellfruit", "chorus_fruit"] = []
      ∧
    ObjectiveEngine.optimizeLayout trivialMainLoop [] ["shellfruit", "chorus_fruit"]
        ⟨1000, 50, 99/100, ObjectiveEngine.ObjectiveType.MAX_MUTATIONS⟩ =
      ⟨ObjectiveEngine.createEmptyState 10, 0, 0, 0, []⟩ :=
  ⟨by decide, optimizeLayout_empty_pool trivialMainLoop []
    ["shellfruit", "chorus_fruit"] ⟨1000, 50, 99/100,
      ObjectiveEngine.ObjectiveType.MAX_MUTATIONS⟩ (by decide)⟩

theorem placeCrop_members {P : String → Prop} {r : CropRegistry}
    {q : Pos} {t i : String} (h : CropsMembersOk r.crops P) (hi : P i) :
    CropsMembersOk (r.placeCrop q t i).crops P := by
  unfold CropRegistry.placeCrop
  cases hc : alookup r.crops q with
  | none =>
    dsimp only
    intro p hp
    rcases List.mem_append.mp hp with hm | hm
    · exact h p hm
    · rcases List.mem_singleton.mp hm with rfl
      refine ⟨by simp, ?_⟩
      intro id hid
      rcases List.mem_singleton.mp hid with rfl
      exact hi
  | some ci =>
    dsimp only
    intro p hp
    rcases mem_mapSet hp with rfl | hm
    · refine ⟨setAdd_ne_nil (h _ (alookup_mem hc)).1, ?_⟩
      intro id hid
      rcases mem_setAdd.mp hid with hold | rfl
      · exact (h _ (alookup_mem hc)).2 id hold
      · exact hi
    · exact h p hm

theorem markZones_frame (L : List Pos) (c : PlacementContext) :
    (L.foldl PlacementContext.markEmptyZone c).crops = c.crops ∧
    (L.foldl PlacementContext.markEmptyZone c).mutations = c.mutations ∧
    (L.foldl PlacementContext.markEmptyZone c).grid = c.grid := by
  refine foldl_invariant
    (fun b => b.crops = c.crops ∧ b.mutations = c.mutations ∧ b.grid = c.grid)
    _ ?_ L c ⟨rfl, rfl, rfl⟩
  intro b q hb
  unfold PlacementContext.markEmptyZone
  by_cases h : b.grid.isUnlocked q = true
  · rw [if_pos h]; exact hb
  · rw [if_neg h]; exact hb

theorem registerSatisfiedCrops_frame (m : ParsedMutation) (f : FeasiblePlacement)
    (i : String) (c : PlacementContext) :
    (Placer.registerSatisfiedCrops m f i c).1.grid = c.grid ∧
    (Placer.registerSatisfiedCrops m f i c).1.mutations = c.mutations ∧
    (Placer.registerSatisfiedCrops m f i c).1.emptyZones = c.emptyZones := by
  unfold Placer.registerSatisfiedCrops
  refine foldl_invariant
    (fun acc : PlacementContext × List (Pos × String) =>
      acc.1.grid = c.grid ∧ acc.1.mutations = c.mutations ∧
      acc.1.emptyZones = c.emptyZones)
    _ ?_ f.satisfiedCrops (c, []) ⟨rfl, rfl, rfl⟩
  intro b entry hb
  dsimp only
  refine foldl_invariant
    (fun acc : PlacementContext × List (Pos × String) =>
      acc.1.grid = c.grid ∧ acc.1.mutations = c.mutations ∧
      acc.1.emptyZones = c.emptyZones)
    _ ?_ _ b hb
  intro b2 pos hb2
  cases b2.1.crops.getCrop pos <;> exact hb2

theorem registerSatisfiedCrops_members {P : String → Prop} (m : ParsedMutation)
    (f : FeasiblePlacement) (i : String) (c : PlacementContext)
    (h : CropsMembersOk c.crops.crops P) (hi : P i) :
    CropsMembersOk (Placer.registerSatisfiedCrops m f i c).1.crops.crops P := by
  unfold Placer.registerSatisfiedCrops
  refine foldl_invariant
    (fun acc : PlacementContext × List (Pos × String) =>
      CropsMembersOk acc.1.crops.crops P)
    _ ?_ f.satisfiedCrops (c, []) h
  intro b entry hb
  dsimp only
  refine foldl_invariant
    (fun acc : PlacementContext × List (Pos × String) =>
      CropsMembersOk acc.1.crops.crops P)
    _ ?_ _ b hb
  intro b2 pos hb2
  dsimp only
  cases hc : b2.1.crops.getCrop pos with
  | none => exact hb2
  | some crop =>
    dsimp only
    intro p hp
    rcases mem_mapSet hp with rfl | hm
    · refine ⟨setAdd_ne_nil (hb2 _ (alookup_mem hc)).1, ?_⟩
      intro id hid
      rcases mem_setAdd.mp hid with hold | rfl
      · exact (hb2 _ (alookup_mem hc)).2 id hold
      · exact hi
    · exact hb2 p hm

theorem placeNeededCrops_frame (i : String) :
    ∀ (needs : List (String × Nat)) (free : List Pos) (c : PlacementContext),
    (Placer.placeNeededCrops i needs free c).1.mutations = c.mutations ∧
    (Placer.placeNeededCrops i needs free c).1.emptyZones = c.emptyZones ∧
    (Placer.placeNeededCrops i needs free c).1.grid.unlockedSlots
      = c.grid.unlockedSlots := by
  intro needs
  induction needs with
  | nil => intro free c; exact ⟨rfl, rfl, rfl⟩
  | cons p rest ih =>
    intro free c
    rw [Placer.placeNeededCrops]
    dsimp only
    refine ⟨?_, ?_, ?_⟩
    · rw [(ih (free.drop p.2) _).1]
      refine foldl_preserves (fun cc : PlacementContext => cc.mutations)
        _ ?_ _ c
      intro b a; rfl
    · rw [(ih (free.drop p.2) _).2.1]
      refine foldl_preserves (fun cc : PlacementContext => cc.emptyZones)
        _ ?_ _ c
      intro b a; rfl
    · rw [(ih (free.drop p.2) _).2.2]
      refine foldl_preserves
        (fun cc : PlacementContext => cc.grid.unlockedSlots) _ ?_ _ c
      intro b a; rfl

theorem placeNeededCrops_members {P : String → Prop} (i : String) (hi : P i) :
    ∀ (needs : List (String × Nat)) (free : List Pos) (c : PlacementContext),
    CropsMembersOk c.crops.crops P →
    CropsMembersOk (Placer.placeNeededCrops i needs free c).1.crops.crops P := by
  intro needs
  induction needs with
  | nil => intro free c h; exact h
  | cons p rest ih =>
    intro free c h
    rw [Placer.placeNeededCrops]
    dsimp only
    refine ih (free.drop p.2) _ ?_
    refine foldl_invariant (fun cc => CropsMembersOk cc.crops.crops P)
      _ ?_ _ c h
    intro cc cell hcc
    exact placeCrop_members hcc hi

theorem executePlacement_lookup_self (c : PlacementContext) (m : ParsedMutation)
    (f : FeasiblePlacement) (i : String) :
    (alookup (Placer.executePlacement c m f i).1.mutations.mutations i).isSome
      = true := by
  unfold Placer.executePlacement
  by_cases hiso : m.conditions.requiresIsolation = true
  · rw [if_pos hiso]
    dsimp only
    simp only [MutationRegistry.place]
    rw [alookup_mapSet_self]
    rfl
  · rw [if_neg hiso]
    dsimp only
    simp only [MutationRegistry.place]
    rw [alookup_mapSet_self]
    rfl

theorem executePlacement_lookup_ne (c : PlacementContext) (m : ParsedMutation)
    (f : FeasiblePlacement) (i id : String) (h : id ≠ i) :
    alookup (Placer.executePlacement c m f i).1.mutations.mutations id
      = alookup c.mutations.mutations id := by
  unfold Placer.executePlacement
  by_cases hiso : m.conditions.requiresIsolation = true
  · rw [if_pos hiso]
    dsimp only
    simp only [MutationRegistry.place]
    rw [alookup_mapSet_ne _ _ _ _ h,
      (markZones_frame _ _).2.1]
  · rw [if_neg hiso]
    dsimp only
    simp only [MutationRegistry.place]
    rw [alookup_mapSet_ne _ _ _ _ h,
      (placeNeededCrops_frame i _ _ _).1,
      (registerSatisfiedCrops_frame m f i _).2.1]

theorem executePlacement_members (c : PlacementContext) (m : ParsedMutation)
    (f : FeasiblePlacement) (i : String) {P : String → Prop} (hP : P i)
    (h : CropsMembersOk c.crops.crops P) :
    CropsMembersOk (Placer.executePlacement c m f i).1.crops.crops P := by
  unfold Placer.executePlacement
  by_cases hiso : m.conditions.requiresIsolation = true
  · rw [if_pos hiso]
    dsimp only
    rw [(markZones_frame _ _).1]
    exact h
  · rw [if_neg hiso]
    dsimp only
    refine placeNeededCrops_members i hP f.cropsNeeded f.freeCells _ ?_
    exact registerSatisfiedCrops_members m f i _ h hP

theorem removeServing_entries (id : String) :
    ∀ (l : List (Pos × CropInfo)) (p : Pos × CropInfo),
    p ∈ (removeServing id l).1 →
    ∃ q ∈ l, p.1 = q.1 ∧
      p.2.mutations = q.2.mutations.filter (fun s => decide (s ≠ id)) ∧
      p.2.mutations ≠ [] := by
  intro l
  induction l with
  | nil => intro p hp; cases hp
  | cons q rest ih =>
    intro p hp
    rw [removeServing] at hp
    by_cases he : (q.2.mutations.filter (fun s => decide (s ≠ id))).isEmpty
        = true
    · rw [if_pos he] at hp
      obtain ⟨w, hw, hws⟩ := ih p hp
      exact ⟨w, List.mem_cons_of_mem _ hw, hws⟩
    · rw [if_neg he] at hp
      rcases List.mem_cons.mp hp with rfl | hm
      · refine ⟨q, List.mem_cons_self _ _, rfl, rfl, ?_⟩
        intro hcontra
        apply he
        rw [show q.2.mutations.filter (fun s => decide (s ≠ id))
          = ([] : List String) from hcontra]
        rfl
      · obtain ⟨w, hw, hws⟩ := ih p hm
        exact ⟨w, List.mem_cons_of_mem _ hw, hws⟩

theorem releaseCells_frame :
    ∀ (L : List Pos) (b : PlacementContext),
    (L.foldl (fun cc q => { cc with grid := cc.grid.release q }) b).crops
        = b.crops ∧
    (L.foldl (fun cc q => { cc with grid := cc.grid.release q }) b).mutations
        = b.mutations ∧
    (L.foldl (fun cc q =>
      { cc with grid := cc.grid.release q }) b).emptyZones = b.emptyZones ∧
    (L.foldl (fun cc q =>
      { cc with grid := cc.grid.release q }) b).grid.unlockedSlots
        = b.grid.unlockedSlots := by
  intro L
  induction L with
  | nil => intro b; exact ⟨rfl, rfl, rfl, rfl⟩
  | cons a t ih =>
    intro b
    rw [List.foldl_cons]
    exact ih _

theorem removePlacement_cases (c : PlacementContext) (i : String) :
    (Placer.removePlacement c i).1 = c ∨
    ((Placer.removePlacement c i).1.crops.crops
        = (removeServing i c.crops.crops).1 ∧
      (Placer.removePlacement c i).1.mutations.mutations
        = mapDelete c.mutations.mutations i) := by
  unfold Placer.removePlacement
  unfold MutationRegistry.remove
  cases hl : alookup c.mutations.mutations i with
  | none => exact Or.inl rfl
  | some pl =>
    dsimp only
    refine Or.inr ⟨?_, ?_⟩
    · rw [(releaseCells_frame _ _).1]
      rfl
    · rw [(releaseCells_frame _ _).2.1]

/-- C2.  Amended crop-liveness invariant of the bulk-pattern strategy: in
every state reachable by checker-driven Placer operations plus the guarded
crop pre-lay step of the BulkPlacer patterns, every crop record has a
non-empty serving set and every member is either the pre-placement
sentinel owner or the instance id of a live placement. -/
theorem bulk_crop_liveness {u : List Pos} {c : PlacementContext}
    (h : BulkReachable u c) : CropLivenessAmended c := by
  induction h with
  | init => intro p hp; cases hp
  | exec i hr hf ih =>
    rename_i c0 m x y f
    have hmem : CropsMembersOk c0.crops.crops
        (fun id => id = "__pre__" ∨
          (alookup (Placer.executePlacement c0 m f i).1.mutations.mutations
            id).isSome = true) := by
      intro p hp
      refine ⟨(ih p hp).1, ?_⟩
      intro id hid
      rcases (ih p hp).2 id hid with hpre | hlive
      · exact Or.inl hpre
      · right
        by_cases hii : id = i
        · rcases hii with rfl
          exact executePlacement_lookup_self c0 m f id
        · rw [executePlacement_lookup_ne c0 m f i id hii]
          exact hlive
    exact executePlacement_members c0 m f i
      (Or.inr (executePlacement_lookup_self c0 m f i)) hmem
  | remove i hr ih =>
    rename_i c0
    rcases removePlacement_cases c0 i with heq | ⟨hc, hm⟩
    · rw [heq]; exact ih
    · intro p hp
      rw [hc] at hp
      obtain ⟨q, hq, hq1, hq2, hne⟩ :=
        removeServing_entries i c0.crops.crops p hp
      refine ⟨hne, ?_⟩
      intro id hid
      rw [hq2] at hid
      have hidq : id ∈ q.2.mutations := (List.mem_filter.mp hid).1
      have hidne : id ≠ i := of_decide_eq_true (List.mem_filter.mp hid).2
      rcases (ih q hq).2 id hidq with hpre | hlive
      · exact Or.inl hpre
      · right
        rw [hm, alookup_mapDelete_ne _ _ _ hidne]
        exact hlive
  | preLay q t hr hfree ih =>
    exact placeCrop_members ih (Or.inl rfl)

/-- Closed instance of the amended crop-liveness invariant: the state after
one guarded pre-lay of a pumpkin on the three-cell corner board. -/
theorem bulk_crop_liveness_witness :
    CropLivenessAmended
      (BulkPlacer.preLayCrop (PlacementContext.new smallUnlocked)
        ((0 : Int), (0 : Int)) "pumpkin") :=
  bulk_crop_liveness
    (BulkReachable.preLay ((0 : Int), (0 : Int)) "pumpkin"
      BulkReachable.init (by decide))

theorem foldl_invariant_mem {β α : Type} (P : β → Prop) (g : β → α → β) :
    ∀ (l : List α), (∀ b, ∀ a ∈ l, P b → P (g b a)) →
    ∀ b, P b → P (l.foldl g b) := by
  intro l
  induction l with
  | nil => intro _ b hb; exact hb
  | cons a t ih =>
    intro h b hb
    rw [List.foldl_cons]
    exact ih (fun b2 a2 ha2 hb2 => h b2 a2 (List.mem_cons_of_mem _ ha2) hb2)
      _ (h b a (List.mem_cons_self _ _) hb)

theorem isSome_false_eq_none {α : Type} {o : Option α}
    (h : o.isSome = false) : o = none := by
  cases o
  · rfl
  · simp at h

theorem mapDelete_mem {κ β : Type} [DecidableEq κ] {m : List (κ × β)} {k : κ}
    {p : κ × β} (h : p ∈ mapDelete m k) : p ∈ m := by
  unfold mapDelete at h
  exact List.mem_of_mem_filter h

theorem alookup_mapSet_none {κ β : Type} [DecidableEq κ] {m : List (κ × β)}
    {k r : κ} {v : β} (hk : (alookup m k).isSome = true)
    (hr : alookup m r = none) : alookup (mapSet m k v) r = none := by
  by_cases hrk : r = k
  · subst hrk
    rw [hr] at hk
    simp at hk
  · rw [alookup_mapSet_ne _ _ _ _ hrk]
    exact hr

theorem isCellFreeForCrop_inBounds {c : PlacementContext} {q : Pos}
    (h : c.isCellFreeForCrop q = true) : inBounds q := by
  unfold PlacementContext.isCellFreeForCrop at h
  simp only [Bool.and_eq_true, decide_eq_true_eq] at h
  exact h.1.1.1

theorem isCellFreeForCrop_false_of_zone {c : PlacementContext} {r : Pos}
    (h : r ∈ c.emptyZones) : c.isCellFreeForCrop r = false := by
  simp [PlacementContext.isCellFreeForCrop, h]

theorem isCellFreeForCrop_false_of_locked {c : PlacementContext} {r : Pos}
    (h : r ∉ c.grid.unlockedSlots) : c.isCellFreeForCrop r = false := by
  simp [PlacementContext.isCellFreeForCrop, Grid.isFree, h]

theorem scanFree_freeCells (c : PlacementContext) (st : ScanState) (q : Pos)
    (h : ∀ s ∈ st.freeCells, c.isCellFreeForCrop s = true) :
    ∀ s ∈ (FeasibilityChecker.scanFree c st q).freeCells,
      c.isCellFreeForCrop s = true := by
  unfold FeasibilityChecker.scanFree
  by_cases hq : c.isCellFreeForCrop q = true
  · rw [if_pos hq]
    intro s hs
    rcases List.mem_append.mp hs with hm | hm
    · exact h s hm
    · rcases List.mem_singleton.mp hm with rfl
      exact hq
  · rw [if_neg hq]
    exact h

theorem scanMut_freeCells (c : PlacementContext) (m : ParsedMutation)
    (st : ScanState) (q : Pos)
    (h : ∀ s ∈ st.freeCells, c.isCellFreeForCrop s = true) :
    ∀ s ∈ (FeasibilityChecker.scanMut c m st q).freeCells,
      c.isCellFreeForCrop s = true := by
  unfold FeasibilityChecker.scanMut
  cases hid : c.mutations.getMutationIdAt q with
  | none => exact scanFree_freeCells c st q h
  | some mutId =>
    dsimp only
    by_cases hcond : (alookup m.conditions.mutations mutId).isSome
        ∧ mutId ∉ st.checkedMutations
    · rw [if_pos hcond]
      exact h
    · rw [if_neg hcond]
      exact scanFree_freeCells c st q h

theorem scanCell_freeCells (c : PlacementContext) (m : ParsedMutation)
    (st : ScanState) (q : Pos)
    (h : ∀ s ∈ st.freeCells, c.isCellFreeForCrop s = true) :
    ∀ s ∈ (FeasibilityChecker.scanCell c m st q).freeCells,
      c.isCellFreeForCrop s = true := by
  unfold FeasibilityChecker.scanCell
  by_cases hin : inBounds q
  · rw [if_pos hin]
    cases hcrop : c.crops.getCrop q with
    | none => exact scanMut_freeCells c m st q h
    | some crop =>
      dsimp only
      by_cases hreq : (alookup m.conditions.crops crop.type).isSome
      · rw [if_pos hreq]
        exact h
      · rw [if_neg hreq]
        exact scanMut_freeCells c m st q h
  · rw [if_neg hin]
    exact h

theorem scanCell_fold_freeCells (c : PlacementContext) (m : ParsedMutation) :
    ∀ (L : List Pos) (st : ScanState),
    (∀ s ∈ st.freeCells, c.isCellFreeForCrop s = true) →
    ∀ s ∈ (L.foldl (FeasibilityChecker.scanCell c m) st).freeCells,
      c.isCellFreeForCrop s = true := by
  intro L
  induction L with
  | nil => intro st h; exact h
  | cons a t ih =>
    intro st h
    rw [List.foldl_cons]
    exact ih _ (scanCell_freeCells c m st a h)

theorem checkFeasibility_some_inversion {c : PlacementContext}
    {m : ParsedMutation} {x y : Int} {f : FeasiblePlacement}
    (h : FeasibilityChecker.checkFeasibility c m x y = some f) :
    c.grid.canFitRect x y m.size.1 m.size.2 = true ∧
    (∀ q ∈ rectCells x y m.size.1 m.size.2, q ∉ c.emptyZones) ∧
    f.position = (x, y) ∧
    (m.conditions.requiresIsolation = true →
      f = ⟨(x, y), [], [], [], []⟩ ∧
      ∀ q ∈ ringCells x y m.size.1 m.size.2, inBounds q →
        c.crops.hasCrop q = false) ∧
    (m.conditions.requiresIsolation = false →
      ∀ q ∈ f.freeCells, c.isCellFreeForCrop q = true) := by
  unfold FeasibilityChecker.checkFeasibility at h
  by_cases h1 : c.grid.canFitRect x y m.size.1 m.size.2 = true
  · rw [if_pos h1] at h
    by_cases h2 : (rectCells x y m.size.1 m.size.2).any
        (fun q => decide (q ∈ c.emptyZones)) = true
    · rw [if_pos h2] at h; cases h
    · rw [if_neg h2] at h
      have hz : ∀ q ∈ rectCells x y m.size.1 m.size.2, q ∉ c.emptyZones := by
        intro q hq hmem
        exact h2 (List.any_eq_true.mpr ⟨q, hq, decide_eq_true hmem⟩)
      by_cases hiso : m.conditions.requiresIsolation = true
      · rw [if_pos hiso] at h
        by_cases h3 : (ringCells x y m.size.1 m.size.2).any
            (fun q => decide (inBounds q) && c.crops.hasCrop q) = true
        · rw [if_pos h3] at h; cases h
        · rw [if_neg h3] at h
          have hf := Option.some.inj h
          subst hf
          refine ⟨h1, hz, rfl, fun _ => ⟨rfl, ?_⟩,
            fun hfalse => absurd (hfalse ▸ hiso) Bool.false_ne_true⟩
          intro q hq hb
          cases hcrop : c.crops.hasCrop q with
          | false => rfl
          | true =>
            exact absurd (List.any_eq_true.mpr ⟨q, hq, by simp [hcrop, hb]⟩) h3
      · rw [if_neg hiso] at h
        dsimp only at h
        split at h
        · cases h
        · split at h
          · cases h
          · have hf := Option.some.inj h
            subst hf
            refine ⟨h1, hz, rfl, fun htrue => absurd htrue hiso, fun _ => ?_⟩
            exact scanCell_fold_freeCells c m _ _
              (fun s hs => absurd hs (List.not_mem_nil s))
  · rw [if_neg h1] at h; cases h

theorem placeCrop_lookup_none {r : CropRegistry} {cell s : Pos} {t i : String}
    (hne : s ≠ cell) (h : alookup r.crops s = none) :
    alookup (r.placeCrop cell t i).crops s = none := by
  unfold CropRegistry.placeCrop
  cases hc : alookup r.crops cell with
  | none =>
    dsimp only
    rw [alookup_append_of_none _ h, alookup]
    dsimp only
    rw [if_neg (fun hc2 => hne hc2.symm)]
    rfl
  | some ci =>
    dsimp only
    refine alookup_mapSet_none ?_ h
    rw [hc]
    rfl

theorem placeCrop_keys {Q : Pos → Prop} {r : CropRegistry} {cell : Pos}
    {t i : String} (h : ∀ p ∈ r.crops, Q p.1) (hq : Q cell) :
    ∀ p ∈ (r.placeCrop cell t i).crops, Q p.1 := by
  unfold CropRegistry.placeCrop
  cases hc : alookup r.crops cell with
  | none =>
    dsimp only
    intro p hp
    rcases List.mem_append.mp hp with hm | hm
    · exact h p hm
    · rcases List.mem_singleton.mp hm with rfl
      exact hq
  | some ci =>
    dsimp only
    intro p hp
    rcases mem_mapSet hp with rfl | hm
    · exact hq
    · exact h p hm

theorem registerSatisfiedCrops_lookup_none (m : ParsedMutation)
    (f : FeasiblePlacement) (i : String) (c : PlacementContext) (r : Pos)
    (h : alookup c.crops.crops r = none) :
    alookup (Placer.registerSatisfiedCrops m f i c).1.crops.crops r
      = none := by
  unfold Placer.registerSatisfiedCrops
  refine foldl_invariant
    (fun acc : PlacementContext × List (Pos × String) =>
      alookup acc.1.crops.crops r = none)
    _ ?_ f.satisfiedCrops (c, []) h
  intro b entry hb
  dsimp only
  refine foldl_invariant
    (fun acc : PlacementContext × List (Pos × String) =>
      alookup acc.1.crops.crops r = none)
    _ ?_ _ b hb
  intro b2 pos hb2
  dsimp only
  cases hc : b2.1.crops.getCrop pos with
  | none => exact hb2
  | some crop =>
    dsimp only
    refine alookup_mapSet_none ?_ hb2
    rw [show alookup b2.1.crops.crops pos = some crop from hc]
    rfl

theorem registerSatisfiedCrops_keys {Q : Pos → Prop} (m : ParsedMutation)
    (f : FeasiblePlacement) (i : String) (c : PlacementContext)
    (h : ∀ p ∈ c.crops.crops, Q p.1) :
    ∀ p ∈ (Placer.registerSatisfiedCrops m f i c).1.crops.crops, Q p.1 := by
  unfold Placer.registerSatisfiedCrops
  refine foldl_invariant
    (fun acc : PlacementContext × List (Pos × String) =>
      ∀ p ∈ acc.1.crops.crops, Q p.1)
    _ ?_ f.satisfiedCrops (c, []) h
  intro b entry hb
  dsimp only
  refine foldl_invariant
    (fun acc : PlacementContext × List (Pos × String) =>
      ∀ p ∈ acc.1.crops.crops, Q p.1)
    _ ?_ _ b hb
  intro b2 pos hb2
  dsimp only
  cases hc : b2.1.crops.getCrop pos with
  | none => exact hb2
  | some crop =>
    dsimp only
    intro p hp
    rcases mem_mapSet hp with rfl | hm
    · exact hb2 (pos, crop) (alookup_mem hc)
    · exact hb2 p hm

theorem placeNeededCrops_lookup_none (i : String) (r : Pos) :
    ∀ (needs : List (String × Nat)) (free : List Pos) (c : PlacementContext),
    r ∉ free → alookup c.crops.crops r = none →
    alookup (Placer.placeNeededCrops i needs free c).1.crops.crops r
      = none := by
  intro needs
  induction needs with
  | nil => intro free c _ h; exact h
  | cons p rest ih =>
    intro free c hrf h
    rw [Placer.placeNeededCrops]
    dsimp only
    refine ih (free.drop p.2) _
      (fun hm => hrf (List.drop_subset _ _ hm)) ?_
    refine foldl_invariant_mem
      (fun cc : PlacementContext => alookup cc.crops.crops r = none)
      _ _ ?_ c h
    intro b cell hcell hb
    exact placeCrop_lookup_none
      (fun he => hrf (by rw [he]; exact List.take_subset _ _ hcell)) hb

theorem placeNeededCrops_keys {Q : Pos → Prop} (i : String) :
    ∀ (needs : List (String × Nat)) (free : List Pos) (c : PlacementContext),
    (∀ q ∈ free, Q q) → (∀ p ∈ c.crops.crops, Q p.1) →
    ∀ p ∈ (Placer.placeNeededCrops i needs free c).1.crops.crops, Q p.1 := by
  intro needs
  induction needs with
  | nil => intro free c _ h; exact h
  | cons p rest ih =>
    intro free c hfree h
    rw [Placer.placeNeededCrops]
    dsimp only
    refine ih (free.drop p.2) _
      (fun q hq => hfree q (List.drop_subset _ _ hq)) ?_
    refine foldl_invariant_mem
      (fun cc : PlacementContext => ∀ p ∈ cc.crops.crops, Q p.1)
      _ _ ?_ c h
    intro b cell hcell hb
    exact placeCrop_keys hb (hfree cell (List.take_subset _ _ hcell))

theorem occupyRect_unlocked (g : Grid) (x y : Int) (w h : Nat) :
    (g.occupyRect x y w h).unlockedSlots = g.unlockedSlots := by
  unfold Grid.occupyRect
  refine foldl_preserves (fun gr : Grid => gr.unlockedSlots) _ ?_ _ g
  intro b a
  rfl

theorem releaseRect_unlocked (g : Grid) (x y : Int) (w h : Nat) :
    (g.releaseRect x y w h).unlockedSlots = g.unlockedSlots := by
  unfold Grid.releaseRect
  refine foldl_preserves (fun gr : Grid => gr.unlockedSlots) _ ?_ _ g
  intro b a
  rfl

theorem markZones_mem :
    ∀ (L : List Pos) (b : PlacementContext) (z : Pos),
    z ∈ (L.foldl PlacementContext.markEmptyZone b).emptyZones ↔
      z ∈ b.emptyZones ∨ (z ∈ L ∧ b.grid.isUnlocked z = true) := by
  intro L
  induction L with
  | nil => intro b z; simp
  | cons a t ih =>
    intro b z
    rw [List.foldl_cons, ih (PlacementContext.markEmptyZone b a) z]
    unfold PlacementContext.markEmptyZone
    by_cases ha : b.grid.isUnlocked a = true
    · rw [if_pos ha]
      dsimp only
      rw [mem_setAdd]
      constructor
      · rintro ((hz | rfl) | ⟨hzt, hu⟩)
        · exact Or.inl hz
        · exact Or.inr ⟨List.mem_cons_self _ _, ha⟩
        · exact Or.inr ⟨List.mem_cons_of_mem _ hzt, hu⟩
      · rintro (hz | ⟨hzm, hu⟩)
        · exact Or.inl (Or.inl hz)
        · rcases List.mem_cons.mp hzm with rfl | hzt
          · exact Or.inl (Or.inr rfl)
          · exact Or.inr ⟨hzt, hu⟩
    · rw [if_neg ha]
      constructor
      · rintro (hz | ⟨hzt, hu⟩)
        · exact Or.inl hz
        · exact Or.inr ⟨List.mem_cons_of_mem _ hzt, hu⟩
      · rintro (hz | ⟨hzm, hu⟩)
        · exact Or.inl hz
        · rcases List.mem_cons.mp hzm with rfl | hzt
          · exact absurd hu ha
          · exact Or.inr ⟨hzt, hu⟩

theorem removeServing_lookup_none (i : String) :
    ∀ (l : List (Pos × CropInfo)) (r : Pos),
    alookup l r = none → alookup (removeServing i l).1 r = none := by
  intro l
  induction l with
  | nil => intro r h; exact h
  | cons q rest ih =>
    intro r h
    rw [alookup] at h
    by_cases hk : q.1 = r
    · rw [if_pos hk] at h; cases h
    · rw [if_neg hk] at h
      rw [removeServing]
      by_cases he : ((q.2.mutations.filter (fun s => decide (s ≠ i))).isEmpty)
          = true
      · rw [if_pos he]
        exact ih r h
      · rw [if_neg he]
        show alookup ((q.1,
          (⟨q.2.type, q.2.mutations.filter (fun s => decide (s ≠ i))⟩ :
            CropInfo)) :: (removeServing i rest).1) r = none
        rw [alookup]
        dsimp only
        rw [if_neg hk]
        exact ih r h

theorem removePlacement_frame (c : PlacementContext) (i : String) :
    (Placer.removePlacement c i).1.emptyZones = c.emptyZones ∧
    (Placer.removePlacement c i).1.grid.unlockedSlots
      = c.grid.unlockedSlots := by
  unfold Placer.removePlacement MutationRegistry.remove
  cases hl : alookup c.mutations.mutations i with
  | none => exact ⟨rfl, rfl⟩
  | some pl =>
    dsimp only
    constructor
    · rw [(releaseCells_frame _ _).2.2.1]
    · rw [(releaseCells_frame _ _).2.2.2]
      dsimp only
      rw [releaseRect_unlocked]

theorem executePlacement_crops_iso (c : PlacementContext) (m : ParsedMutation)
    (f : FeasiblePlacement) (i : String)
    (hiso : m.conditions.requiresIsolation = true) :
    (Placer.executePlacement c m f i).1.crops = c.crops := by
  unfold Placer.executePlacement
  rw [if_pos hiso]
  dsimp only
  rw [(markZones_frame _ _).1]

theorem executePlacement_zones_noniso (c : PlacementContext)
    (m : ParsedMutation) (f : FeasiblePlacement) (i : String)
    (hiso : ¬ m.conditions.requiresIsolation = true) :
    (Placer.executePlacement c m f i).1.emptyZones = c.emptyZones := by
  unfold Placer.executePlacement
  rw [if_neg hiso]
  dsimp only
  rw [(placeNeededCrops_frame i _ _ _).2.1,
    (registerSatisfiedCrops_frame m f i _).2.2]

theorem executePlacement_zones_iso (c : PlacementContext)
    (m : ParsedMutation) (f : FeasiblePlacement) (i : String)
    (hiso : m.conditions.requiresIsolation = true) (z : Pos) :
    z ∈ (Placer.executePlacement c m f i).1.emptyZones ↔
      z ∈ c.emptyZones ∨
      (z ∈ ringCells f.position.1 f.position.2 m.size.1 m.size.2 ∧
        z ∈ c.grid.unlockedSlots) := by
  unfold Placer.executePlacement
  rw [if_pos hiso]
  dsimp only
  rw [markZones_mem]
  simp [Grid.isUnlocked, occupyRect_unlocked]

theorem executePlacement_unlocked (c : PlacementContext) (m : ParsedMutation)
    (f : FeasiblePlacement) (i : String) :
    (Placer.executePlacement c m f i).1.grid.unlockedSlots
      = c.grid.unlockedSlots := by
  unfold Placer.executePlacement
  by_cases hiso : m.conditions.requiresIsolation = true
  · rw [if_pos hiso]
    dsimp only
    rw [(markZones_frame _ _).2.2]
    dsimp only
    rw [occupyRect_unlocked]
  · rw [if_neg hiso]
    dsimp only
    rw [(placeNeededCrops_frame i _ _ _).2.2,
      (registerSatisfiedCrops_frame m f i _).1]
    dsimp only
    rw [occupyRect_unlocked]

theorem executePlacement_registry_mem (c : PlacementContext)
    (m : ParsedMutation) (f : FeasiblePlacement) (i : String)
    {p : String × MutationPlacement}
    (hp : p ∈ (Placer.executePlacement c m f i).1.mutations.mutations) :
    (p.2.needsIsolation = m.conditions.requiresIsolation ∧
      p.2.position = f.position ∧ p.2.size = m.size) ∨
    p ∈ c.mutations.mutations := by
  unfold Placer.executePlacement at hp
  by_cases hiso : m.conditions.requiresIsolation = true
  · rw [if_pos hiso] at hp
    dsimp only at hp
    simp only [MutationRegistry.place] at hp
    rw [(markZones_frame _ _).2.1] at hp
    rcases mem_mapSet hp with rfl | hm
    · exact Or.inl ⟨hiso.symm, rfl, rfl⟩
    · exact Or.inr hm
  · rw [if_neg hiso] at hp
    dsimp only at hp
    simp only [MutationRegistry.place] at hp
    rw [(placeNeededCrops_frame i _ _ _).1,
      (registerSatisfiedCrops_frame m f i _).2.1] at hp
    rcases mem_mapSet hp with rfl | hm
    · exact Or.inl ⟨(Bool.eq_false_iff.mpr hiso).symm, rfl, rfl⟩
    · exact Or.inr hm

theorem executePlacement_crops_lookup_none (c : PlacementContext)
    (m : ParsedMutation) (f : FeasiblePlacement) (i : String) (r : Pos)
    (hfree : ∀ q ∈ f.freeCells, c.isCellFreeForCrop q = true)
    (hnone : alookup c.crops.crops r = none)
    (hnf : c.isCellFreeForCrop r = false) :
    alookup (Placer.executePlacement c m f i).1.crops.crops r = none := by
  unfold Placer.executePlacement
  by_cases hiso : m.conditions.requiresIsolation = true
  · rw [if_pos hiso]
    dsimp only
    rw [(markZones_frame _ _).1]
    exact hnone
  · rw [if_neg hiso]
    dsimp only
    have hrf : r ∉ f.freeCells := fun hm => by
      rw [hfree r hm] at hnf
      cases hnf
    refine placeNeededCrops_lookup_none i r f.cropsNeeded f.freeCells _
      hrf ?_
    exact registerSatisfiedCrops_lookup_none m f i _ r hnone

theorem executePlacement_crops_keys {Q : Pos → Prop} (c : PlacementContext)
    (m : ParsedMutation) (f : FeasiblePlacement) (i : String)
    (hfree : ∀ q ∈ f.freeCells, Q q)
    (h : ∀ p ∈ c.crops.crops, Q p.1) :
    ∀ p ∈ (Placer.executePlacement c m f i).1.crops.crops, Q p.1 := by
  unfold Placer.executePlacement
  by_cases hiso : m.conditions.requiresIsolation = true
  · rw [if_pos hiso]
    dsimp only
    rw [(markZones_frame _ _).1]
    exact h
  · rw [if_neg hiso]
    dsimp only
    refine placeNeededCrops_keys i f.cropsNeeded f.freeCells _ hfree ?_
    exact registerSatisfiedCrops_keys m f i _ h

theorem executePlacement_isolationInv {c : PlacementContext}
    {m : ParsedMutation} {x y : Int} {f : FeasiblePlacement} (i : String)
    (hf : FeasibilityChecker.checkFeasibility c m x y = some f)
    (hinv : IsolationInv c) :
    IsolationInv (Placer.executePlacement c m f i).1 := by
  obtain ⟨hI1, hI2, hI3⟩ := hinv
  obtain ⟨hfit, hzavoid, hfpos, hisoInv, hnisoInv⟩ :=
    checkFeasibility_some_inversion hf
  by_cases hiso : m.conditions.requiresIsolation = true
  · obtain ⟨hfeq, hringfree⟩ := hisoInv hiso
    have hcrops := executePlacement_crops_iso c m f i hiso
    have hoob : ∀ r : Pos, ¬ inBounds r → alookup c.crops.crops r = none :=
      fun r hb =>
        alookup_eq_none_of_forall (fun p2 hp2 hc2 => hb (hc2 ▸ hI3 p2 hp2))
    have hringnone : ∀ r ∈ ringCells f.position.1 f.position.2 m.size.1
        m.size.2, alookup c.crops.crops r = none := by
      intro r hr
      by_cases hb : inBounds r
      · refine isSome_false_eq_none ?_
        refine hringfree r ?_ hb
        rw [show f.position = ((x : Int), (y : Int)) from by rw [hfeq]] at hr
        exact hr
      · exact hoob r hb
    refine ⟨?_, ?_, ?_⟩
    · intro p hp hpiso r hr
      rcases executePlacement_registry_mem c m f i hp with hnew | hold
      · obtain ⟨hni, hpos, hsz⟩ := hnew
        rw [hpos, hsz] at hr
        constructor
        · rw [hcrops]
          exact hringnone r hr
        · intro hu
          rw [executePlacement_unlocked] at hu
          rw [executePlacement_zones_iso c m f i hiso]
          exact Or.inr ⟨hr, hu⟩
      · have hold2 := hI1 p hold hpiso r hr
        constructor
        · rw [hcrops]
          exact hold2.1
        · intro hu
          rw [executePlacement_unlocked] at hu
          rw [executePlacement_zones_iso c m f i hiso]
          exact Or.inl (hold2.2 hu)
    · intro z hz
      rw [hcrops]
      rcases (executePlacement_zones_iso c m f i hiso z).mp hz
        with hzold | ⟨hzr, hzu⟩
      · exact hI2 z hzold
      · exact hringnone z hzr
    · intro p hp
      rw [hcrops] at hp
      exact hI3 p hp
  · have hiso2 : m.conditions.requiresIsolation = false :=
      Bool.eq_false_iff.mpr hiso
    have hfree := hnisoInv hiso2
    have hzones := executePlacement_zones_noniso c m f i hiso
    refine ⟨?_, ?_, ?_⟩
    · intro p hp hpiso r hr
      rcases executePlacement_registry_mem c m f i hp with hnew | hold
      · rw [hiso2] at hnew
        rw [hnew.1] at hpiso
        cases hpiso
      · have hold2 := hI1 p hold hpiso r hr
        constructor
        · refine executePlacement_crops_lookup_none c m f i r hfree
            hold2.1 ?_
          by_cases hu : r ∈ c.grid.unlockedSlots
          · exact isCellFreeForCrop_false_of_zone (hold2.2 hu)
          · exact isCellFreeForCrop_false_of_locked hu
        · intro hu
          rw [hzones]
          rw [executePlacement_unlocked] at hu
          exact hold2.2 hu
    · intro z hz
      rw [hzones] at hz
      exact executePlacement_crops_lookup_none c m f i z hfree (hI2 z hz)
        (isCellFreeForCrop_false_of_zone hz)
    · refine executePlacement_crops_keys c m f i ?_ hI3
      intro q hq
      exact isCellFreeForCrop_inBounds (hfree q hq)

theorem removePlacement_isolationInv {c : PlacementContext} (i : String)
    (hinv : IsolationInv c) : IsolationInv (Placer.removePlacement c i).1 := by
  obtain ⟨hI1, hI2, hI3⟩ := hinv
  rcases removePlacement_cases c i with heq | ⟨hc, hm⟩
  · rw [heq]
    exact ⟨hI1, hI2, hI3⟩
  · obtain ⟨hz, hu⟩ := removePlacement_frame c i
    refine ⟨?_, ?_, ?_⟩
    · intro p hp hpiso r hr
      rw [hm] at hp
      have hold2 := hI1 p (mapDelete_mem hp) hpiso r hr
      constructor
      · rw [hc]
        exact removeServing_lookup_none i _ r hold2.1
      · intro hru
        rw [hz]
        rw [hu] at hru
        exact hold2.2 hru
    · intro z hzm
      rw [hz] at hzm
      rw [hc]
      exact removeServing_lookup_none i _ z (hI2 z hzm)
    · intro p hp
      rw [hc] at hp
      obtain ⟨q, hq, hq1, hq2, hne⟩ := removeServing_entries i c.crops.crops p hp
      rw [hq1]
      exact hI3 q hq

/-- C5 amended.  In every state reachable by checker-driven Placer
operations, every isolation-requiring live placement has a crop-free
adjacency ring whose unlocked cells are marked reserved-empty,
reserved-empty cells carry no crop, and crop cells stay in bounds;
moreover any footprint the checker accepts avoids the reserved-empty
cells existing at that time.  The ring may overlap other placements'
footprints, which the code never checks. -/
theorem placer_isolation_invariant :
    (∀ (u : List Pos) (c : PlacementContext),
      PlacerReachable u c → IsolationInv c) ∧
    (∀ (c : PlacementContext) (m : ParsedMutation) (x y : Int)
        (f : FeasiblePlacement),
      FeasibilityChecker.checkFeasibility c m x y = some f →
      ∀ q ∈ rectCells x y m.size.1 m.size.2, q ∉ c.emptyZones) := by
  constructor
  · intro u c hreach
    induction hreach with
    | init =>
      refine ⟨?_, ?_, ?_⟩
      · intro p hp; cases hp
      · intro z hz; cases hz
      · intro p hp; cases hp
    | exec i hr hf ih => exact executePlacement_isolationInv i hf ih
    | remove i hr ih => exact removePlacement_isolationInv i ih
  · intro c m x y f hf
    exact (checkFeasibility_some_inversion hf).2.1

/-- Closed instance of the isolation invariant: the reachable two-step
state of the isolation counterexample satisfies it, and the checker
placed the isolation mutation on no reserved-empty cell. -/
theorem placer_isolation_invariant_witness :
    IsolationInv c5End ∧
    (((0 : Int), (1 : Int)) : Pos) ∉ c5Mid.emptyZones := by
  have h1 : FeasibilityChecker.checkFeasibility
      (PlacementContext.new fullUnlocked) a2Mut 0 0 = some c5f1 := by decide
  have h2 : FeasibilityChecker.checkFeasibility c5Mid lonelilyParsed 0 1
      = some c5f2 := by decide
  refine ⟨?_, ?_⟩
  · exact placer_isolation_invariant.1 fullUnlocked c5End
      (PlacerReachable.exec "lonelily_0"
        (PlacerReachable.exec "a2_0" PlacerReachable.init h1) h2)
  · exact placer_isolation_invariant.2 c5Mid lonelilyParsed 0 1 c5f2 h2
      ((0 : Int), (1 : Int)) (by decide)

theorem alookup_none_forall {κ β : Type} [DecidableEq κ] :
    ∀ {m : List (κ × β)} {k : κ}, alookup m k = none →
    ∀ p ∈ m, p.1 ≠ k := by
  intro m k h p hp
  induction m with
  | nil => cases hp
  | cons q t ih =>
    rw [alookup] at h
    by_cases hq : q.1 = k
    · rw [if_pos hq] at h; cases h
    · rw [if_neg hq] at h
      rcases List.mem_cons.mp hp with rfl | hm
      · exact hq
      · exact ih h hm

theorem filter_all_true {α : Type} (p : α → Bool) :
    ∀ (l : List α), (∀ a ∈ l, p a = true) → l.filter p = l := by
  intro l
  induction l with
  | nil => intro _; rfl
  | cons a t ih =>
    intro h
    rw [List.filter_cons, if_pos (h a (List.mem_cons_self _ _)),
      ih (fun b hb => h b (List.mem_cons_of_mem _ hb))]

theorem map_fix {α : Type} (f : α → α) :
    ∀ (l : List α), (∀ a ∈ l, f a = a) → l.map f = l := by
  intro l
  induction l with
  | nil => intro _; rfl
  | cons a t ih =>
    intro h
    rw [List.map_cons, h a (List.mem_cons_self _ _),
      ih (fun b hb => h b (List.mem_cons_of_mem _ hb))]

theorem setAdd_idem {α : Type} [DecidableEq α] (l : List α) (a : α) :
    setAdd (setAdd l a) a = setAdd l a := by
  unfold setAdd
  by_cases h : a ∈ l
  · rw [if_pos h, if_pos h]
  · rw [if_neg h,
      if_pos (List.mem_append_right _ (List.mem_singleton.mpr rfl))]

theorem mapSet_absent {κ β : Type} [DecidableEq κ] {m : List (κ × β)} {k : κ}
    (v : β) (h : alookup m k = none) : mapSet m k v = m ++ [(k, v)] := by
  unfold mapSet
  rw [if_neg (by rw [h]; simp)]

theorem mapDelete_mapSet_fresh {κ β : Type} [DecidableEq κ]
    {m : List (κ × β)} {k : κ} (v : β) (h : alookup m k = none) :
    mapDelete (mapSet m k v) k = m := by
  rw [mapSet_absent v h]
  unfold mapDelete
  rw [List.filter_append,
    filter_all_true _ _
      (fun p hp => decide_eq_true (alookup_none_forall h p hp))]
  simp

theorem mapSet_append_ex {κ β : Type} [DecidableEq κ] {ctm E : List (κ × β)}
    {q : κ} (v : β) (h : ∀ p ∈ ctm, p.1 ≠ q) :
    ∃ E2, mapSet (ctm ++ E) q v = ctm ++ E2 ∧
      ∀ p ∈ E2, p.1 = q ∨ ∃ p0 ∈ E, p.1 = p0.1 := by
  have hnone : alookup ctm q = none := alookup_eq_none_of_forall h
  unfold mapSet
  rw [alookup_append_of_none _ hnone]
  cases hE : alookup E q with
  | none =>
    rw [if_neg (by simp)]
    refine ⟨E ++ [(q, v)], List.append_assoc _ _ _, ?_⟩
    intro p hp
    rcases List.mem_append.mp hp with hm | hm
    · exact Or.inr ⟨p, hm, rfl⟩
    · rcases List.mem_singleton.mp hm with rfl
      exact Or.inl rfl
  | some w =>
    rw [if_pos (show (some w).isSome = true from rfl), List.map_append,
      map_fix _ ctm (fun p hp => if_neg (h p hp))]
    refine ⟨E.map _, rfl, ?_⟩
    intro p hp
    obtain ⟨p0, hp0, hpe⟩ := List.mem_map.mp hp
    by_cases hk : p0.1 = q
    · rw [if_pos hk] at hpe
      rw [← hpe]
      exact Or.inl rfl
    · rw [if_neg hk] at hpe
      exact Or.inr ⟨p0, hp0, by rw [← hpe]⟩

theorem foldSet_ex {κ β : Type} [DecidableEq κ] (v : β) (K : List κ) :
    ∀ (L : List κ), (∀ q ∈ L, q ∈ K) →
    ∀ (ctm E : List (κ × β)),
    (∀ q ∈ L, ∀ p ∈ ctm, p.1 ≠ q) →
    (∀ p ∈ E, ∃ q0 ∈ K, p.1 = q0) →
    ∃ E2, L.foldl (fun m2 q => mapSet m2 q v) (ctm ++ E) = ctm ++ E2 ∧
      ∀ p ∈ E2, ∃ q0 ∈ K, p.1 = q0 := by
  intro L
  induction L with
  | nil => intro _ ctm E _ hE; exact ⟨E, rfl, hE⟩
  | cons a t ih =>
    intro hK ctm E hctm hE
    rw [List.foldl_cons]
    obtain ⟨E1, hE1, hprops⟩ :=
      mapSet_append_ex v (hctm a (List.mem_cons_self _ _))
    rw [hE1]
    refine ih (fun q hq => hK q (List.mem_cons_of_mem _ hq)) ctm E1
      (fun q hq p hp => hctm q (List.mem_cons_of_mem _ hq) p hp) ?_
    intro p hp
    rcases hprops p hp with he | ⟨p0, hp0, he⟩
    · exact ⟨a, hK a (List.mem_cons_self _ _), he⟩
    · obtain ⟨q0, hq0, he0⟩ := hE p0 hp0
      exact ⟨q0, hq0, he.trans he0⟩

theorem foldDelete_clears {κ β : Type} [DecidableEq κ] :
    ∀ (L : List κ) (ctm E : List (κ × β)),
    (∀ q ∈ L, ∀ p ∈ ctm, p.1 ≠ q) → (∀ p ∈ E, p.1 ∈ L) →
    L.foldl (fun m2 q => mapDelete m2 q) (ctm ++ E) = ctm := by
  intro L
  induction L with
  | nil =>
    intro ctm E _ hE
    have hEnil : E = [] := by
      cases E with
      | nil => rfl
      | cons p t =>
        exact absurd (hE p (List.mem_cons_self _ _)) (List.not_mem_nil _)
    rw [hEnil, List.append_nil]
    rfl
  | cons a t ih =>
    intro ctm E hctm hE
    rw [List.foldl_cons]
    have hstep : mapDelete (ctm ++ E) a
        = ctm ++ E.filter (fun p => decide (p.1 ≠ a)) := by
      unfold mapDelete
      rw [List.filter_append,
        filter_all_true _ ctm
          (fun p hp =>
            decide_eq_true (hctm a (List.mem_cons_self _ _) p hp))]
    rw [hstep]
    refine ih ctm _
      (fun q hq p hp => hctm q (List.mem_cons_of_mem _ hq) p hp) ?_
    intro p hp
    have h1 := List.mem_filter.mp hp
    have h2 : p.1 ≠ a := of_decide_eq_true h1.2
    rcases List.mem_cons.mp (hE p h1.1) with he | hm
    · exact absurd he h2
    · exact hm

theorem occupy_fold_ex :
    ∀ (L : List Pos) (g : Grid),
    ∃ A, (L.foldl Grid.occupy g).occupied = g.occupied ++ A ∧
      ∀ a ∈ A, a ∈ L := by
  intro L
  induction L with
  | nil =>
    intro g
    refine ⟨[], (List.append_nil _).symm, ?_⟩
    intro a ha
    cases ha
  | cons q t ih =>
    intro g
    rw [List.foldl_cons]
    obtain ⟨A1, hA1, hsub⟩ := ih (g.occupy q)
    by_cases hmem : q ∈ g.occupied
    · refine ⟨A1, ?_, fun a ha => List.mem_cons_of_mem _ (hsub a ha)⟩
      rw [hA1]
      show setAdd g.occupied q ++ A1 = g.occupied ++ A1
      unfold setAdd
      rw [if_pos hmem]
    · refine ⟨q :: A1, ?_, ?_⟩
      · rw [hA1]
        show setAdd g.occupied q ++ A1 = g.occupied ++ (q :: A1)
        unfold setAdd
        rw [if_neg hmem, List.append_assoc]
        rfl
      · intro a ha
        rcases List.mem_cons.mp ha with rfl | hm
        · exact List.mem_cons_self _ _
        · exact List.mem_cons_of_mem _ (hsub a hm)

theorem release_fold_occ :
    ∀ (L : List Pos) (g : Grid),
    (L.foldl Grid.release g).occupied
      = L.foldl (fun occ q => occ.filter (fun p => decide (p ≠ q)))
          g.occupied := by
  intro L
  induction L with
  | nil => intro g; rfl
  | cons q t ih =>
    intro g
    rw [List.foldl_cons, List.foldl_cons]
    exact ih (g.release q)

theorem releaseRect_occ (g : Grid) (x y : Int) (w h : Nat) :
    (g.releaseRect x y w h).occupied
      = (rectCells x y w h).foldl
          (fun occ q => occ.filter (fun p => decide (p ≠ q))) g.occupied := by
  unfold Grid.releaseRect
  exact release_fold_occ _ _

theorem release_ctx_fold_occ :
    ∀ (L : List Pos) (cc : PlacementContext),
    (L.foldl (fun c2 q => { c2 with grid := c2.grid.release q }) cc).grid.occupied
      = L.foldl (fun occ q => occ.filter (fun p => decide (p ≠ q)))
          cc.grid.occupied := by
  intro L
  induction L with
  | nil => intro cc; rfl
  | cons q t ih =>
    intro cc
    rw [List.foldl_cons, List.foldl_cons]
    exact ih _

theorem release_fold_restore :
    ∀ (R : List Pos) (s A : List Pos),
    (∀ a ∈ s, a ∉ R) → (∀ a ∈ A, a ∈ R) →
    R.foldl (fun occ q => occ.filter (fun p => decide (p ≠ q))) (s ++ A)
      = s := by
  intro R
  induction R with
  | nil =>
    intro s A _ hA
    have hAnil : A = [] := by
      cases A with
      | nil => rfl
      | cons a t =>
        exact absurd (hA a (List.mem_cons_self _ _)) (List.not_mem_nil _)
    rw [hAnil, List.append_nil]
    rfl
  | cons r t ih =>
    intro s A hs hA
    rw [List.foldl_cons]
    have hstep : (s ++ A).filter (fun p => decide (p ≠ r))
        = s ++ A.filter (fun p => decide (p ≠ r)) := by
      rw [List.filter_append]
      congr 1
      refine filter_all_true _ s ?_
      intro a ha
      refine decide_eq_true ?_
      intro he
      rw [he] at ha
      exact hs r ha (List.mem_cons_self r t)
    rw [hstep]
    refine ih s _ (fun a ha hm => hs a ha (List.mem_cons_of_mem _ hm)) ?_
    intro a ha
    have h1 := List.mem_filter.mp ha
    have h2 : a ≠ r := of_decide_eq_true h1.2
    rcases List.mem_cons.mp (hA a h1.1) with he | hm
    · exact absurd he h2
    · exact hm

theorem servRel_self (i : String) :
    ∀ (l : List (Pos × CropInfo)), List.Forall₂ (servRel i) l l := by
  intro l
  induction l with
  | nil => exact List.Forall₂.nil
  | cons p t ih => exact List.Forall₂.cons ⟨rfl, rfl, Or.inl rfl⟩ ih

theorem forall2_keys (i : String) :
    ∀ {l l' : List (Pos × CropInfo)}, List.Forall₂ (servRel i) l l' →
    l'.map (fun p => p.1) = l.map (fun p => p.1) := by
  intro l l' h
  induction h with
  | nil => rfl
  | cons hpq hrest ih =>
    rw [List.map_cons, List.map_cons, hpq.1, ih]

theorem forall2_map_inplace (i : String) :
    ∀ {orig cur : List (Pos × CropInfo)} (pos : Pos) (crop : CropInfo),
    List.Forall₂ (servRel i) orig cur →
    (orig.map (fun p => p.1)).Nodup →
    alookup cur pos = some crop →
    List.Forall₂ (servRel i) orig
      (cur.map (fun e => if e.1 = pos
        then (pos, (⟨crop.type, setAdd crop.mutations i⟩ : CropInfo))
        else e)) := by
  intro orig cur pos crop h
  induction h with
  | nil => intro _ hc; cases hc
  | cons hpq hrest ih =>
    rename_i p q t t'
    intro hnd hc
    rw [List.map_cons] at hnd ⊢
    rw [alookup] at hc
    by_cases hq : q.1 = pos
    · rw [if_pos hq] at hc
      have hcrop : crop = q.2 := by cases hc; rfl
      rw [if_pos hq]
      have htail : t'.map (fun e => if e.1 = pos
          then (pos, (⟨crop.type, setAdd crop.mutations i⟩ : CropInfo))
          else e) = t' := by
        refine map_fix _ t' ?_
        intro e he
        refine if_neg ?_
        intro hepos
        have hkeys := forall2_keys i hrest
        have hmem : e.1 ∈ t.map (fun p => p.1) := by
          rw [← hkeys]
          exact List.mem_map.mpr ⟨e, he, rfl⟩
        have : p.1 ∈ t.map (fun p2 => p2.1) := by
          rw [show p.1 = e.1 from by rw [hepos, ← hq, hpq.1]]
          exact hmem
        exact (List.nodup_cons.mp hnd).1 this
      rw [htail]
      refine List.Forall₂.cons ?_ hrest
      refine ⟨?_, ?_, ?_⟩
      · rw [← hq, hpq.1]
      · rw [hcrop]
        exact hpq.2.1
      · rw [hcrop]
        rcases hpq.2.2 with he | he
        · rw [he]
          exact Or.inr rfl
        · rw [he, setAdd_idem]
          exact Or.inr rfl
    · rw [if_neg hq] at hc
      rw [if_neg hq]
      exact List.Forall₂.cons hpq (ih (List.nodup_cons.mp hnd).2 hc)

theorem registerSatisfiedCrops_forall2 (m : ParsedMutation)
    (f : FeasiblePlacement) (i : String) (c : PlacementContext)
    (hnd : (c.crops.crops.map (fun p => p.1)).Nodup) :
    List.Forall₂ (servRel i) c.crops.crops
      (Placer.registerSatisfiedCrops m f i c).1.crops.crops := by
  unfold Placer.registerSatisfiedCrops
  refine foldl_invariant
    (fun acc : PlacementContext × List (Pos × String) =>
      List.Forall₂ (servRel i) c.crops.crops acc.1.crops.crops)
    _ ?_ f.satisfiedCrops (c, []) (servRel_self i _)
  intro b entry hb
  dsimp only
  refine foldl_invariant
    (fun acc : PlacementContext × List (Pos × String) =>
      List.Forall₂ (servRel i) c.crops.crops acc.1.crops.crops)
    _ ?_ _ b hb
  intro b2 pos hb2
  dsimp only
  cases hc : b2.1.crops.getCrop pos with
  | none => exact hb2
  | some crop =>
    dsimp only
    unfold mapSet
    rw [if_pos (by
      rw [show alookup b2.1.crops.crops pos = some crop from hc]
      rfl)]
    exact forall2_map_inplace i pos crop hb2 hnd hc

theorem filter_ne_of_not_mem {l : List String} {i : String} (h : i ∉ l) :
    l.filter (fun s => decide (s ≠ i)) = l := by
  refine filter_all_true _ l ?_
  intro a ha
  refine decide_eq_true ?_
  intro he
  rw [he] at ha
  exact h ha

theorem removeServing_restore (i : String) :
    ∀ {l l' : List (Pos × CropInfo)}, List.Forall₂ (servRel i) l l' →
    (∀ p ∈ l, p.2.mutations ≠ [] ∧ i ∉ p.2.mutations) →
    removeServing i l' = (l, []) := by
  intro l l' h
  induction h with
  | nil => intro _; rfl
  | cons hpq hrest ih =>
    rename_i p q t t'
    intro hprop
    have hni : i ∉ p.2.mutations := (hprop p (List.mem_cons_self _ _)).2
    have hne : p.2.mutations ≠ [] := (hprop p (List.mem_cons_self _ _)).1
    rw [removeServing]
    have hms : q.2.mutations.filter (fun s => decide (s ≠ i))
        = p.2.mutations := by
      rcases hpq.2.2 with he | he
      · rw [he]
        exact filter_ne_of_not_mem hni
      · rw [he, show setAdd p.2.mutations i = p.2.mutations ++ [i] from by
          unfold setAdd
          rw [if_neg hni], List.filter_append, filter_ne_of_not_mem hni]
        simp
    rw [hms]
    rw [if_neg (fun hEmp : p.2.mutations.isEmpty = true =>
      hne (by
        cases hm : p.2.mutations with
        | nil => rfl
        | cons a t2 => rw [hm] at hEmp; cases hEmp))]
    rw [ih (fun p2 hp2 => hprop p2 (List.mem_cons_of_mem _ hp2))]
    rw [hpq.1, hpq.2.1]

theorem removeServing_new (i : String) :
    ∀ (l : List (Pos × CropInfo)),
    (∀ p ∈ l, p.2.mutations = [i]) →
    removeServing i l = ([], l.map (fun p => p.1)) := by
  intro l
  induction l with
  | nil => intro _; rfl
  | cons p t ih =>
    intro h
    rw [removeServing]
    have hms : p.2.mutations.filter (fun s => decide (s ≠ i)) = [] := by
      rw [h p (List.mem_cons_self _ _)]
      simp
    rw [hms]
    rw [if_pos (show ([] : List String).isEmpty = true from rfl)]
    rw [ih (fun p2 hp2 => h p2 (List.mem_cons_of_mem _ hp2))]
    rfl

theorem removeServing_append (i : String) :
    ∀ (l1 l2 : List (Pos × CropInfo)),
    removeServing i (l1 ++ l2)
      = ((removeServing i l1).1 ++ (removeServing i l2).1,
         (removeServing i l1).2 ++ (removeServing i l2).2) := by
  intro l1
  induction l1 with
  | nil => intro l2; rfl
  | cons p t ih =>
    intro l2
    rw [List.cons_append, removeServing, removeServing, ih]
    by_cases he : (p.2.mutations.filter (fun s => decide (s ≠ i))).isEmpty
        = true
    · rw [if_pos he, if_pos he]
      rfl
    · rw [if_neg he, if_neg he]
      rfl

theorem isCellFreeForCrop_spec {c : PlacementContext} {q : Pos}
    (h : c.isCellFreeForCrop q = true) :
    inBounds q ∧ q ∈ c.grid.unlockedSlots ∧ q ∉ c.grid.occupied ∧
    q ∉ c.emptyZones ∧ alookup c.crops.crops q = none := by
  unfold PlacementContext.isCellFreeForCrop Grid.isFree
    CropRegistry.hasCrop at h
  simp only [Bool.and_eq_true, Bool.not_eq_true', decide_eq_true_eq] at h
  exact ⟨h.1.1.1, h.1.1.2.2.1, h.1.1.2.2.2, h.1.2,
    isSome_false_eq_none h.2⟩

theorem canFitRect_spec {g : Grid} {x y : Int} {w h : Nat}
    (hc : g.canFitRect x y w h = true) :
    ∀ q ∈ rectCells x y w h,
      inBounds q ∧ q ∈ g.unlockedSlots ∧ q ∉ g.occupied := by
  intro q hq
  unfold Grid.canFitRect at hc
  have h2 := List.all_eq_true.mp hc q hq
  unfold Grid.isFree at h2
  simpa using h2

theorem setAdd_append_cases {α : Type} [DecidableEq α] (s A : List α)
    (a : α) :
    setAdd (s ++ A) a = s ++ A ∨ setAdd (s ++ A) a = s ++ (A ++ [a]) := by
  unfold setAdd
  by_cases h : a ∈ s ++ A
  · rw [if_pos h]
    exact Or.inl rfl
  · rw [if_neg h]
    exact Or.inr (List.append_assoc _ _ _)

theorem placeNeededCrops_charact (i : String) (c0 : List (Pos × CropInfo))
    (occ0 : List Pos) (FREE : List Pos)
    (hc0 : ∀ q ∈ FREE, ∀ p ∈ c0, p.1 ≠ q) :
    ∀ (needs : List (String × Nat)) (free : List Pos)
      (cc : PlacementContext),
    (∀ q ∈ free, q ∈ FREE) →
    ∀ (NEW : List (Pos × CropInfo)) (A : List Pos),
    cc.crops.crops = c0 ++ NEW →
    cc.grid.occupied = occ0 ++ A →
    (∀ p ∈ NEW, p.2.mutations = [i] ∧ p.1 ∈ FREE) →
    (∀ a ∈ A, ∃ p ∈ NEW, p.1 = a) →
    ∃ NEW2 A2,
      (Placer.placeNeededCrops i needs free cc).1.crops.crops
        = c0 ++ NEW2 ∧
      (Placer.placeNeededCrops i needs free cc).1.grid.occupied
        = occ0 ++ A2 ∧
      (∀ p ∈ NEW2, p.2.mutations = [i] ∧ p.1 ∈ FREE) ∧
      (∀ a ∈ A2, ∃ p ∈ NEW2, p.1 = a) := by
  intro needs
  induction needs with
  | nil =>
    intro free cc _ NEW A hcr hoc hN hA
    exact ⟨NEW, A, hcr, hoc, hN, hA⟩
  | cons pr rest ih =>
    intro free cc hfree NEW A hcr hoc hN hA
    rw [Placer.placeNeededCrops]
    dsimp only
    have hinner :
        (fun c2 : PlacementContext => ∃ NEW1 A1,
          c2.crops.crops = c0 ++ NEW1 ∧ c2.grid.occupied = occ0 ++ A1 ∧
          (∀ p ∈ NEW1, p.2.mutations = [i] ∧ p.1 ∈ FREE) ∧
          (∀ a ∈ A1, ∃ p ∈ NEW1, p.1 = a))
        ((free.take pr.2).foldl (fun c2 cell =>
          { c2 with
              crops := c2.crops.placeCrop cell pr.1 i,
              grid := c2.grid.occupy cell }) cc) := by
      refine foldl_invariant_mem
        (fun c2 : PlacementContext => ∃ NEW1 A1,
          c2.crops.crops = c0 ++ NEW1 ∧ c2.grid.occupied = occ0 ++ A1 ∧
          (∀ p ∈ NEW1, p.2.mutations = [i] ∧ p.1 ∈ FREE) ∧
          (∀ a ∈ A1, ∃ p ∈ NEW1, p.1 = a))
        _ _ ?_ cc ⟨NEW, A, hcr, hoc, hN, hA⟩
      intro b cell hcell hb
      obtain ⟨N1, A1, hbc, hbo, hbN, hbA⟩ := hb
      have hcellF : cell ∈ FREE := hfree cell (List.take_subset _ _ hcell)
      have hlook : alookup b.crops.crops cell = alookup N1 cell := by
        rw [hbc]
        exact alookup_append_of_none _
          (alookup_eq_none_of_forall (fun p2 hp2 => hc0 cell hcellF p2 hp2))
      have hocc : setAdd b.grid.occupied cell = occ0 ++ A1 ∨
          setAdd b.grid.occupied cell = occ0 ++ (A1 ++ [cell]) := by
        rw [hbo]
        exact setAdd_append_cases occ0 A1 cell
      cases hNl : alookup N1 cell with
      | none =>
        have hpc : (b.crops.placeCrop cell pr.1 i).crops
            = c0 ++ (N1 ++ [(cell, ⟨pr.1, [i]⟩)]) := by
          unfold CropRegistry.placeCrop
          rw [show alookup b.crops.crops cell = none from by
            rw [hlook]; exact hNl]
          dsimp only
          rw [hbc, List.append_assoc]
        have hp1 : ∀ p2 ∈ N1 ++ [((cell : Pos),
            (⟨pr.1, [i]⟩ : CropInfo))],
            p2.2.mutations = [i] ∧ p2.1 ∈ FREE := by
          intro p2 hp2
          rcases List.mem_append.mp hp2 with hm | hm
          · exact hbN p2 hm
          · rcases List.mem_singleton.mp hm with rfl
            exact ⟨rfl, hcellF⟩
        rcases hocc with hso | hso
        · refine ⟨N1 ++ [(cell, ⟨pr.1, [i]⟩)], A1, hpc, hso, hp1, ?_⟩
          intro a2 ha2
          obtain ⟨p2, hp2, he2⟩ := hbA a2 ha2
          exact ⟨p2, List.mem_append_left _ hp2, he2⟩
        · refine ⟨N1 ++ [(cell, ⟨pr.1, [i]⟩)], A1 ++ [cell], hpc, hso,
            hp1, ?_⟩
          intro a2 ha2
          rcases List.mem_append.mp ha2 with hm | hm
          · obtain ⟨p2, hp2, he2⟩ := hbA a2 hm
            exact ⟨p2, List.mem_append_left _ hp2, he2⟩
          · have he := List.mem_singleton.mp hm
            rw [he]
            exact ⟨_, List.mem_append_right _ (List.mem_singleton.mpr rfl),
              rfl⟩
      | some crop2 =>
        have hc2mem : ((cell : Pos), crop2) ∈ N1 := alookup_mem hNl
        have hc2m : crop2.mutations = [i] := (hbN _ hc2mem).1
        have hpc : (b.crops.placeCrop cell pr.1 i).crops
            = c0 ++ N1.map (fun e => if e.1 = cell
                then ((cell : Pos),
                  (⟨crop2.type, setAdd crop2.mutations i⟩ : CropInfo))
                else e) := by
          unfold CropRegistry.placeCrop
          rw [show alookup b.crops.crops cell = some crop2 from by
            rw [hlook]; exact hNl]
          dsimp only
          unfold mapSet
          rw [if_pos (show (alookup b.crops.crops cell).isSome = true
            from by rw [hlook, hNl]; rfl)]
          rw [hbc, List.map_append, map_fix _ c0 (fun p2 hp2 =>
            if_neg (hc0 cell hcellF p2 hp2))]
        have hkeyfix : ∀ e : Pos × CropInfo,
            ((fun e => if e.1 = cell
              then ((cell : Pos),
                (⟨crop2.type, setAdd crop2.mutations i⟩ : CropInfo))
              else e) e).1 = e.1 := by
          intro e
          dsimp only
          by_cases he : e.1 = cell
          · rw [if_pos he]
            exact he.symm
          · rw [if_neg he]
        have hp1 : ∀ p2 ∈ N1.map (fun e => if e.1 = cell
            then ((cell : Pos),
              (⟨crop2.type, setAdd crop2.mutations i⟩ : CropInfo))
            else e), p2.2.mutations = [i] ∧ p2.1 ∈ FREE := by
          intro p2 hp2
          obtain ⟨e, he, hpe⟩ := List.mem_map.mp hp2
          by_cases hec : e.1 = cell
          · rw [if_pos hec] at hpe
            rw [← hpe]
            refine ⟨?_, hcellF⟩
            show setAdd crop2.mutations i = [i]
            rw [hc2m]
            unfold setAdd
            rw [if_pos (List.mem_singleton.mpr rfl)]
          · rw [if_neg hec] at hpe
            rw [← hpe]
            exact hbN e he
        have hp2 : ∀ a2 ∈ A1, ∃ p2 ∈ N1.map (fun e => if e.1 = cell
            then ((cell : Pos),
              (⟨crop2.type, setAdd crop2.mutations i⟩ : CropInfo))
            else e), p2.1 = a2 := by
          intro a2 ha2
          obtain ⟨p2, hp2m, he2⟩ := hbA a2 ha2
          refine ⟨_, List.mem_map.mpr ⟨p2, hp2m, rfl⟩, ?_⟩
          rw [hkeyfix p2]
          exact he2
        rcases hocc with hso | hso
        · exact ⟨_, A1, hpc, hso, hp1, hp2⟩
        · refine ⟨_, A1 ++ [cell], hpc, hso, hp1, ?_⟩
          intro a2 ha2
          rcases List.mem_append.mp ha2 with hm | hm
          · exact hp2 a2 hm
          · have he := List.mem_singleton.mp hm
            rw [he]
            refine ⟨_, List.mem_map.mpr ⟨(cell, crop2), hc2mem, rfl⟩, ?_⟩
            rw [hkeyfix ((cell : Pos), crop2)]
    obtain ⟨N1, A1, h1, h2, h3, h4⟩ := hinner
    exact ih (free.drop pr.2) _
      (fun q hq => hfree q (List.drop_subset _ _ hq)) N1 A1 h1 h2 h3 h4

theorem execP_snd_fields (c : PlacementContext) (m : ParsedMutation)
    (f : FeasiblePlacement) (i : String) :
    (Placer.executePlacement c m f i).2.instanceId = i ∧
    (Placer.executePlacement c m f i).2.position = f.position ∧
    (Placer.executePlacement c m f i).2.size = m.size := by
  unfold Placer.executePlacement
  by_cases hiso : m.conditions.requiresIsolation = true
  · rw [if_pos hiso]
    exact ⟨rfl, rfl, rfl⟩
  · rw [if_neg hiso]
    exact ⟨rfl, rfl, rfl⟩

theorem execP_mut_eq (c : PlacementContext) (m : ParsedMutation)
    (f : FeasiblePlacement) (i : String) :
    (Placer.executePlacement c m f i).1.mutations.mutations
      = mapSet c.mutations.mutations i
          ((Placer.executePlacement c m f i).2) := by
  unfold Placer.executePlacement
  by_cases hiso : m.conditions.requiresIsolation = true
  · rw [if_pos hiso]
    dsimp only
    simp only [MutationRegistry.place]
    rw [(markZones_frame _ _).2.1]
  · rw [if_neg hiso]
    dsimp only
    simp only [MutationRegistry.place]
    rw [(placeNeededCrops_frame i _ _ _).1,
      (registerSatisfiedCrops_frame m f i _).2.1]

theorem execP_ctm_eq (c : PlacementContext) (m : ParsedMutation)
    (f : FeasiblePlacement) (i : String) :
    (Placer.executePlacement c m f i).1.mutations.cellToMutation
      = (rectCells f.position.1 f.position.2 m.size.1 m.size.2).foldl
          (fun m2 q => mapSet m2 q i) c.mutations.cellToMutation := by
  unfold Placer.executePlacement
  by_cases hiso : m.conditions.requiresIsolation = true
  · rw [if_pos hiso]
    dsimp only
    simp only [MutationRegistry.place]
    rw [(markZones_frame _ _).2.1]
  · rw [if_neg hiso]
    dsimp only
    simp only [MutationRegistry.place]
    rw [(placeNeededCrops_frame i _ _ _).1,
      (registerSatisfiedCrops_frame m f i _).2.1]

theorem execP_crops_noniso (c : PlacementContext) (m : ParsedMutation)
    (f : FeasiblePlacement) (i : String)
    (hiso : ¬ m.conditions.requiresIsolation = true) :
    (Placer.executePlacement c m f i).1.crops.crops
      = (Placer.placeNeededCrops i f.cropsNeeded f.freeCells
          (Placer.registerSatisfiedCrops m f i
            { c with
                grid := c.grid.occupyRect f.position.1 f.position.2
                  m.size.1 m.size.2 }).1).1.crops.crops := by
  unfold Placer.executePlacement
  rw [if_neg hiso]

theorem execP_occ_noniso (c : PlacementContext) (m : ParsedMutation)
    (f : FeasiblePlacement) (i : String)
    (hiso : ¬ m.conditions.requiresIsolation = true) :
    (Placer.executePlacement c m f i).1.grid.occupied
      = (Placer.placeNeededCrops i f.cropsNeeded f.freeCells
          (Placer.registerSatisfiedCrops m f i
            { c with
                grid := c.grid.occupyRect f.position.1 f.position.2
                  m.size.1 m.size.2 }).1).1.grid.occupied := by
  unfold Placer.executePlacement
  rw [if_neg hiso]

theorem execP_occ_iso (c : PlacementContext) (m : ParsedMutation)
    (f : FeasiblePlacement) (i : String)
    (hiso : m.conditions.requiresIsolation = true) :
    (Placer.executePlacement c m f i).1.grid.occupied
      = (c.grid.occupyRect f.position.1 f.position.2 m.size.1
          m.size.2).occupied := by
  unfold Placer.executePlacement
  rw [if_pos hiso]
  dsimp only
  rw [(markZones_frame _ _).2.2]

theorem removeP_mut {S : PlacementContext} {i : String}
    {pl : MutationPlacement}
    (h : alookup S.mutations.mutations i = some pl) :
    (Placer.removePlacement S i).1.mutations.mutations
      = mapDelete S.mutations.mutations i := by
  unfold Placer.removePlacement MutationRegistry.remove
  rw [h]
  dsimp only
  rw [(releaseCells_frame _ _).2.1]

theorem removeP_ctm {S : PlacementContext} {i : String}
    {pl : MutationPlacement}
    (h : alookup S.mutations.mutations i = some pl) :
    (Placer.removePlacement S i).1.mutations.cellToMutation
      = (rectCells pl.position.1 pl.position.2 pl.size.1 pl.size.2).foldl
          (fun m2 q => mapDelete m2 q) S.mutations.cellToMutation := by
  unfold Placer.removePlacement MutationRegistry.remove
  rw [h]
  dsimp only
  rw [(releaseCells_frame _ _).2.1]

theorem removeP_crops {S : PlacementContext} {i : String}
    {pl : MutationPlacement}
    (h : alookup S.mutations.mutations i = some pl) :
    (Placer.removePlacement S i).1.crops.crops
      = (removeServing i S.crops.crops).1 := by
  unfold Placer.removePlacement MutationRegistry.remove
  rw [h]
  dsimp only
  rw [(releaseCells_frame _ _).1]
  rfl

theorem removeP_occ {S : PlacementContext} {i : String}
    {pl : MutationPlacement}
    (h : alookup S.mutations.mutations i = some pl) :
    (Placer.removePlacement S i).1.grid.occupied
      = ((removeServing i S.crops.crops).2).foldl
          (fun occ q => occ.filter (fun p => decide (p ≠ q)))
          ((rectCells pl.position.1 pl.position.2 pl.size.1 pl.size.2).foldl
            (fun occ q => occ.filter (fun p => decide (p ≠ q)))
            S.grid.occupied) := by
  unfold Placer.removePlacement MutationRegistry.remove
  rw [h]
  dsimp only
  rw [release_ctx_fold_occ, releaseRect_occ]
  rfl

theorem occupyRect_ex (g : Grid) (x y : Int) (w h : Nat) :
    ∃ A, (g.occupyRect x y w h).occupied = g.occupied ++ A ∧
      ∀ a ∈ A, a ∈ rectCells x y w h := by
  unfold Grid.occupyRect
  exact occupy_fold_ex _ _

/-- C4.  Executing a checker-approved placement with a fresh instance id
and then removing that id restores the grid, the crop registry and the
placement registry exactly; the reserved-empty set is unchanged for
non-isolated mutations and only ever grows -- by the persisting isolation
halo -- for isolated ones.  The hypotheses are the well-formedness facts
of an optimizer state: the instance id is fresh, serving sets are
non-empty and free of it, the footprint cells are unmapped, and crop-map
keys are unique. -/
theorem execute_then_remove_restores
    (c : PlacementContext) (m : ParsedMutation) (x y : Int)
    (f : FeasiblePlacement) (i : String)
    (hf : FeasibilityChecker.checkFeasibility c m x y = some f)
    (hfresh : alookup c.mutations.mutations i = none)
    (hserv : ∀ p ∈ c.crops.crops, p.2.mutations ≠ [] ∧ i ∉ p.2.mutations)
    (hctm : ∀ q ∈ rectCells x y m.size.1 m.size.2,
      alookup c.mutations.cellToMutation q = none)
    (hnd : (c.crops.crops.map (fun p => p.1)).Nodup) :
    (Placer.removePlacement (Placer.executePlacement c m f i).1 i).1.grid
        = c.grid ∧
    (Placer.removePlacement (Placer.executePlacement c m f i).1 i).1.crops
        = c.crops ∧
    (Placer.removePlacement (Placer.executePlacement c m f i).1
        i).1.mutations = c.mutations ∧
    (m.conditions.requiresIsolation = false →
      (Placer.removePlacement (Placer.executePlacement c m f i).1
        i).1.emptyZones = c.emptyZones) ∧
    (∀ z ∈ c.emptyZones,
      z ∈ (Placer.removePlacement (Placer.executePlacement c m f i).1
        i).1.emptyZones) := by
  obtain ⟨hfit, hzavoid, hfpos, hisoI, hnisoI⟩ :=
    checkFeasibility_some_inversion hf
  obtain ⟨hid, hpos, hsz⟩ := execP_snd_fields c m f i
  set S := (Placer.executePlacement c m f i).1 with hS
  have halook : alookup S.mutations.mutations i
      = some (Placer.executePlacement c m f i).2 := by
    rw [hS, execP_mut_eq]
    exact alookup_mapSet_self _ _ _
  have hrect_ctm : ∀ q ∈ rectCells f.position.1 f.position.2 m.size.1
      m.size.2, alookup c.mutations.cellToMutation q = none := by
    rw [hfpos]
    exact hctm
  have hrect_occ : ∀ q ∈ rectCells f.position.1 f.position.2 m.size.1
      m.size.2, q ∉ c.grid.occupied := by
    rw [hfpos]
    intro q hq
    exact (canFitRect_spec hfit q hq).2.2
  have hmut : (Placer.removePlacement S i).1.mutations.mutations
      = c.mutations.mutations := by
    rw [removeP_mut halook, hS, execP_mut_eq]
    exact mapDelete_mapSet_fresh _ hfresh
  have hctm2 : (Placer.removePlacement S i).1.mutations.cellToMutation
      = c.mutations.cellToMutation := by
    rw [removeP_ctm halook, hS, execP_ctm_eq, hpos, hsz]
    obtain ⟨E2, hE2, hkeys⟩ := foldSet_ex i
      (rectCells f.position.1 f.position.2 m.size.1 m.size.2)
      (rectCells f.position.1 f.position.2 m.size.1 m.size.2)
      (fun q hq => hq) c.mutations.cellToMutation []
      (fun q hq p hp => alookup_none_forall (hrect_ctm q hq) p hp)
      (fun p hp => absurd hp (List.not_mem_nil p))
    rw [List.append_nil] at hE2
    rw [hE2]
    refine foldDelete_clears _ _ _
      (fun q hq p hp => alookup_none_forall (hrect_ctm q hq) p hp) ?_
    intro p hp
    obtain ⟨q0, hq0, he⟩ := hkeys p hp
    rw [he]
    exact hq0
  have hmutreg : (Placer.removePlacement S i).1.mutations
      = c.mutations := by
    rw [show (Placer.removePlacement S i).1.mutations
        = ⟨(Placer.removePlacement S i).1.mutations.mutations,
           (Placer.removePlacement S i).1.mutations.cellToMutation⟩
        from rfl, hmut, hctm2]
  by_cases hiso : m.conditions.requiresIsolation = true
  · -- isolation: crops untouched, occupancy restored, zones persist
    have hScrops : S.crops.crops = c.crops.crops := by
      rw [hS, show (Placer.executePlacement c m f i).1.crops = c.crops
        from executePlacement_crops_iso c m f i hiso]
    have hrs : removeServing i S.crops.crops = (c.crops.crops, []) := by
      rw [hScrops]
      exact removeServing_restore i (servRel_self i _) hserv
    have hrmcrops : (Placer.removePlacement S i).1.crops.crops
        = c.crops.crops := by
      rw [removeP_crops halook, hrs]
    have hrmocc : (Placer.removePlacement S i).1.grid.occupied
        = c.grid.occupied := by
      rw [removeP_occ halook, hpos, hsz, hrs]
      dsimp only
      obtain ⟨A0, hA0, hA0sub⟩ := occupyRect_ex c.grid f.position.1
        f.position.2 m.size.1 m.size.2
      have hSocc : S.grid.occupied = c.grid.occupied ++ A0 := by
        rw [hS, execP_occ_iso c m f i hiso, hA0]
      rw [hSocc]
      refine release_fold_restore _ _ _ ?_ hA0sub
      intro a ha hmem
      exact hrect_occ a hmem ha
    have hgrid : (Placer.removePlacement S i).1.grid = c.grid := by
      rw [show (Placer.removePlacement S i).1.grid
          = ⟨(Placer.removePlacement S i).1.grid.unlockedSlots,
             (Placer.removePlacement S i).1.grid.occupied⟩ from rfl,
        hrmocc, (removePlacement_frame S i).2, hS,
        executePlacement_unlocked]
    have hcropsrec : (Placer.removePlacement S i).1.crops = c.crops := by
      rw [show (Placer.removePlacement S i).1.crops
          = ⟨(Placer.removePlacement S i).1.crops.crops⟩ from rfl,
        hrmcrops]
    refine ⟨hgrid, hcropsrec, hmutreg,
      fun hfalse => absurd (hfalse ▸ hiso) Bool.false_ne_true, ?_⟩
    intro z hz
    rw [(removePlacement_frame S i).1, hS]
    exact (executePlacement_zones_iso c m f i hiso z).mpr (Or.inl hz)
  · -- no isolation: crops report back, occupancy restored, zones equal
    have hiso2 : m.conditions.requiresIsolation = false :=
      Bool.eq_false_iff.mpr hiso
    have hfree := hnisoI hiso2
    have hreg2 : List.Forall₂ (servRel i) c.crops.crops
        (Placer.registerSatisfiedCrops m f i
          { c with
              grid := c.grid.occupyRect f.position.1 f.position.2
                m.size.1 m.size.2 }).1.crops.crops :=
      registerSatisfiedCrops_forall2 m f i
        { c with
            grid := c.grid.occupyRect f.position.1 f.position.2
              m.size.1 m.size.2 } hnd
    have hregnone : ∀ q ∈ f.freeCells,
        alookup (Placer.registerSatisfiedCrops m f i
          { c with
              grid := c.grid.occupyRect f.position.1 f.position.2
                m.size.1 m.size.2 }).1.crops.crops q = none :=
      fun q hq => registerSatisfiedCrops_lookup_none m f i _ q
        (isCellFreeForCrop_spec (hfree q hq)).2.2.2.2
    obtain ⟨NEW, A, hcrS, hocS, hNprops, hAprops⟩ :=
      placeNeededCrops_charact i
        (Placer.registerSatisfiedCrops m f i
          { c with
              grid := c.grid.occupyRect f.position.1 f.position.2
                m.size.1 m.size.2 }).1.crops.crops
        (Placer.registerSatisfiedCrops m f i
          { c with
              grid := c.grid.occupyRect f.position.1 f.position.2
                m.size.1 m.size.2 }).1.grid.occupied
        f.freeCells
        (fun q hq p hp => alookup_none_forall (hregnone q hq) p hp)
        f.cropsNeeded f.freeCells
        (Placer.registerSatisfiedCrops m f i
          { c with
              grid := c.grid.occupyRect f.position.1 f.position.2
                m.size.1 m.size.2 }).1
        (fun q hq => hq)
        [] [] (List.append_nil _).symm (List.append_nil _).symm
        (fun p hp => absurd hp (List.not_mem_nil p))
        (fun a ha => absurd ha (List.not_mem_nil a))
    have hScrops : S.crops.crops
        = (Placer.registerSatisfiedCrops m f i
            { c with
                grid := c.grid.occupyRect f.position.1 f.position.2
                  m.size.1 m.size.2 }).1.crops.crops ++ NEW := by
      rw [hS, execP_crops_noniso c m f i hiso]
      exact hcrS
    have hrs : removeServing i S.crops.crops
        = (c.crops.crops, NEW.map (fun p => p.1)) := by
      rw [hScrops, removeServing_append,
        removeServing_restore i hreg2 hserv,
        removeServing_new i NEW (fun p hp => (hNprops p hp).1)]
      simp
    have hrmcrops : (Placer.removePlacement S i).1.crops.crops
        = c.crops.crops := by
      rw [removeP_crops halook, hrs]
    have hrmocc : (Placer.removePlacement S i).1.grid.occupied
        = c.grid.occupied := by
      rw [removeP_occ halook, hpos, hsz, hrs]
      dsimp only
      obtain ⟨A0, hA0, hA0sub⟩ := occupyRect_ex c.grid f.position.1
        f.position.2 m.size.1 m.size.2
      have hSocc : S.grid.occupied = c.grid.occupied ++ (A0 ++ A) := by
        rw [hS, execP_occ_noniso c m f i hiso, hocS,
          (registerSatisfiedCrops_frame m f i _).1]
        dsimp only
        rw [hA0, List.append_assoc]
      rw [hSocc, ← List.foldl_append]
      refine release_fold_restore _ _ _ ?_ ?_
      · intro a ha hmem
        rcases List.mem_append.mp hmem with hm | hm
        · exact hrect_occ a hm ha
        · obtain ⟨p2, hp2, he2⟩ := List.mem_map.mp hm
          have hk : p2.1 ∈ f.freeCells := (hNprops p2 hp2).2
          rw [he2] at hk
          exact (isCellFreeForCrop_spec (hfree a hk)).2.2.1 ha
      · intro a ha
        rcases List.mem_append.mp ha with hm | hm
        · exact List.mem_append_left _ (hA0sub a hm)
        · refine List.mem_append_right _ ?_
          obtain ⟨p2, hp2, he2⟩ := hAprops a hm
          exact List.mem_map.mpr ⟨p2, hp2, he2⟩
    have hgrid : (Placer.removePlacement S i).1.grid = c.grid := by
      rw [show (Placer.removePlacement S i).1.grid
          = ⟨(Placer.removePlacement S i).1.grid.unlockedSlots,
             (Placer.removePlacement S i).1.grid.occupied⟩ from rfl,
        hrmocc, (removePlacement_frame S i).2, hS,
        executePlacement_unlocked]
    have hcropsrec : (Placer.removePlacement S i).1.crops = c.crops := by
      rw [show (Placer.removePlacement S i).1.crops
          = ⟨(Placer.removePlacement S i).1.crops.crops⟩ from rfl,
        hrmcrops]
    have hz : (Placer.removePlacement S i).1.emptyZones
        = c.emptyZones := by
      rw [(removePlacement_frame S i).1, hS,
        executePlacement_zones_noniso c m f i hiso]
    refine ⟨hgrid, hcropsrec, hmutreg, fun _ => hz, ?_⟩
    intro z hzm
    rw [hz]
    exact hzm

/-- Closed instance of the round trip: placing gloomgourd on the
four-cell corner and removing it restores the empty state exactly. -/
theorem execute_then_remove_restores_witness :
    (Placer.removePlacement (Placer.executePlacement c4Base
      gloomgourdParsed c4f0 "gloomgourd_0").1 "gloomgourd_0").1.grid
        = c4Base.grid ∧
    (Placer.removePlacement (Placer.executePlacement c4Base
      gloomgourdParsed c4f0 "gloomgourd_0").1 "gloomgourd_0").1.crops
        = c4Base.crops ∧
    (Placer.removePlacement (Placer.executePlacement c4Base
      gloomgourdParsed c4f0 "gloomgourd_0").1 "gloomgourd_0").1.mutations
        = c4Base.mutations ∧
    (gloomgourdParsed.conditions.requiresIsolation = false →
      (Placer.removePlacement (Placer.executePlacement c4Base
        gloomgourdParsed c4f0 "gloomgourd_0").1
          "gloomgourd_0").1.emptyZones = c4Base.emptyZones) ∧
    (∀ z ∈ c4Base.emptyZones,
      z ∈ (Placer.removePlacement (Placer.executePlacement c4Base
        gloomgourdParsed c4f0 "gloomgourd_0").1
          "gloomgourd_0").1.emptyZones) :=
  execute_then_remove_restores c4Base gloomgourdParsed 0 0 c4f0
    "gloomgourd_0" (by decide) (by decide) (by decide) (by decide)
    (by decide)

end CropMutation
